import Mathlib

/-
Verification of the domain-restriction / gradient-embedding core of the
ServerlessImagingAWS repository.

Sources embedded here:
  - docker/single_node_batch/devito_isotropic/CloudExtras.py
      convert_to_string, convert_int_from_string, convert_float_from_string,
      restrict_model_to_receiver_grid, extent_gradient
  - docker/multi_node_batch/devito_isotropic/PyModel.py
      Model.__init__ (grid geometry, square slowness), Model.vp setter,
      Model.critical_dt, initialize_damp

Modelling conventions:
  - Python floats are modelled as exact rationals; values produced by the
    transcendental functions np.log and np.sin are modelled as real numbers.
  - Python int() applied to a number truncates toward zero: truncQ below.
  - numpy basic slicing with in-range or out-of-range integer endpoints is
    modelled by npIdx, which performs the normalisation CPython applies to
    slice endpoints for step 1.
  - A 2-d numpy array is a shape pair plus a total value function; entries
    outside the shape are junk and never compared.
  - Operations that make numpy raise (negative dimension in np.zeros,
    mismatched dimensions in np.concatenate, attribute assignment on a
    Python float) are modelled with Option / sum types.
-/

/-- Python int() conversion of an exact rational: truncation toward zero. -/
def truncQ (q : ℚ) : ℤ := if 0 ≤ q then ⌊q⌋ else ⌈q⌉

/-- CPython slice-endpoint normalisation for an axis of length n, step 1:
a negative endpoint counts from the end and is clamped at 0, a nonnegative
endpoint is clamped at n. -/
def npIdx (n : ℕ) (a : ℤ) : ℕ := if a < 0 then (a + n).toNat else min a.toNat n

/-- np.min of a list of rationals (junk 0 on the empty list, where numpy raises). -/
def listMin : List ℚ → ℚ
  | [] => 0
  | x :: xs => xs.foldl min x

/-- np.max of a list of rationals (junk 0 on the empty list, where numpy raises). -/
def listMax : List ℚ → ℚ
  | [] => 0
  | x :: xs => xs.foldl max x

/-- A 2-d numpy array: shape (n1, n2) plus a total value function. -/
structure Arr2 where
  n1 : ℕ
  n2 : ℕ
  val : ℕ → ℕ → ℚ

/-- A 3-d numpy array: shape (n1, n2, n3) plus a total value function. -/
structure Arr3 where
  n1 : ℕ
  n2 : ℕ
  n3 : ℕ
  val : ℕ → ℕ → ℕ → ℚ

/-- CloudExtras.restrict_model_to_receiver_grid, 2-d branch (ndim == 2).
Inputs: source x coordinates sx, receiver x coordinates gx, model array m,
spacing, origin, buffer_size.  Returns (sub-array, its shape, its origin),
mirroring the Python return `m, shape, origin`. -/
def restrict2d (sx gx : List ℚ) (m : Arr2) (spacing origin : ℚ × ℚ)
    (buffer_size : ℚ) : Arr2 × (ℕ × ℕ) × (ℚ × ℚ) :=
  let domain_size : ℚ × ℚ :=
    (((m.n1 : ℚ) - 1) * spacing.1, ((m.n2 : ℚ) - 1) * spacing.2)
  let min_x : ℚ := min (listMin sx) (listMin gx)
  let max_x : ℚ := max (listMax sx) (listMax gx)
  let min_x' : ℚ := max origin.1 (min_x - buffer_size)
  let max_x' : ℚ := min (origin.1 + domain_size.1) (max_x + buffer_size)
  let nx_min : ℤ := truncQ (min_x' / spacing.1)
  let nx_max : ℤ := truncQ (max_x' / spacing.1)
  let ox : ℚ := (nx_min : ℚ) * spacing.1
  let oz : ℚ := origin.2
  let start : ℕ := npIdx m.n1 nx_min
  let stop : ℕ := npIdx m.n1 (nx_max + 1)
  (⟨stop - start, m.n2, fun i j => m.val (start + i) j⟩,
   (stop - start, m.n2), (ox, oz))

/-- CloudExtras.restrict_model_to_receiver_grid, 3-d branch (ndim == 3),
with source/receiver y coordinates sy, gy supplied. -/
def restrict3d (sx gx sy gy : List ℚ) (m : Arr3) (spacing origin : ℚ × ℚ × ℚ)
    (buffer_size : ℚ) : Arr3 × (ℕ × ℕ × ℕ) × (ℚ × ℚ × ℚ) :=
  let domain_size : ℚ × ℚ × ℚ :=
    (((m.n1 : ℚ) - 1) * spacing.1, ((m.n2 : ℚ) - 1) * spacing.2.1,
      ((m.n3 : ℚ) - 1) * spacing.2.2)
  let min_x : ℚ := min (listMin sx) (listMin gx)
  let max_x : ℚ := max (listMax sx) (listMax gx)
  let min_y : ℚ := min (listMin sy) (listMin gy)
  let max_y : ℚ := max (listMax sy) (listMax gy)
  let min_x' : ℚ := max origin.1 (min_x - buffer_size)
  let max_x' : ℚ := min (origin.1 + domain_size.1) (max_x + buffer_size)
  let min_y' : ℚ := max origin.2.1 (min_y - buffer_size)
  let max_y' : ℚ := min (origin.2.1 + domain_size.2.1) (max_y + buffer_size)
  let nx_min : ℤ := truncQ (min_x' / spacing.1)
  let nx_max : ℤ := truncQ (max_x' / spacing.1)
  let ox : ℚ := (nx_min : ℚ) * spacing.1
  let oz : ℚ := origin.2.2
  let ny_min : ℤ := truncQ (min_y' / spacing.2.1)
  let ny_max : ℤ := truncQ (max_y' / spacing.2.1)
  let oy : ℚ := (ny_min : ℚ) * spacing.2.1
  let startx : ℕ := npIdx m.n1 nx_min
  let stopx : ℕ := npIdx m.n1 (nx_max + 1)
  let starty : ℕ := npIdx m.n2 ny_min
  let stopy : ℕ := npIdx m.n2 (ny_max + 1)
  (⟨stopx - startx, stopy - starty, m.n3,
      fun i j k => m.val (startx + i) (starty + j) k⟩,
   (stopx - startx, stopy - starty, m.n3), (ox, oy, oz))

/-- CloudExtras.extent_gradient, 2-d branch.  Returns none exactly when numpy
would raise: a negative dimension passed to np.zeros, or a column-count
mismatch in np.concatenate along axis 0. -/
def extent2d (shape_full : ℕ × ℕ) (origin_full : ℚ × ℚ) (shape_sub : ℕ × ℕ)
    (origin_sub : ℚ × ℚ) (spacing : ℚ × ℚ) (g : Arr2) : Option Arr2 :=
  let nz : ℕ := shape_full.2
  let nx_left : ℤ := truncQ ((origin_sub.1 - origin_full.1) / spacing.1)
  let nx_right : ℤ := (shape_full.1 : ℤ) - (shape_sub.1 : ℤ) - nx_left
  if 0 ≤ nx_left ∧ 0 ≤ nx_right ∧ g.n2 = nz then
    some ⟨nx_left.toNat + g.n1 + nx_right.toNat, nz, fun i j =>
      if i < nx_left.toNat then 0
      else if i < nx_left.toNat + g.n1 then g.val (i - nx_left.toNat) j
      else 0⟩
  else none

/-- CloudExtras.extent_gradient, 3-d branch: zero-pad along axis 0 with blocks
of shape (nx_left, shape_sub[1], nz) and (nx_right, shape_sub[1], nz), then
along axis 1 with blocks of shape (shape_full[0], ny_left, nz) and
(shape_full[0], ny_right, nz).  none exactly when numpy would raise. -/
def extent3d (shape_full : ℕ × ℕ × ℕ) (origin_full : ℚ × ℚ × ℚ)
    (shape_sub : ℕ × ℕ × ℕ) (origin_sub : ℚ × ℚ × ℚ) (spacing : ℚ × ℚ × ℚ)
    (g : Arr3) : Option Arr3 :=
  let nz : ℕ := shape_full.2.2
  let nx_left : ℤ := truncQ ((origin_sub.1 - origin_full.1) / spacing.1)
  let nx_right : ℤ := (shape_full.1 : ℤ) - (shape_sub.1 : ℤ) - nx_left
  let ny_left : ℤ := truncQ ((origin_sub.2.1 - origin_full.2.1) / spacing.2.1)
  let ny_right : ℤ := (shape_full.2.1 : ℤ) - (shape_sub.2.1 : ℤ) - ny_left
  if 0 ≤ nx_left ∧ 0 ≤ nx_right ∧ g.n2 = shape_sub.2.1 ∧ g.n3 = nz ∧
      0 ≤ ny_left ∧ 0 ≤ ny_right ∧
      nx_left.toNat + g.n1 + nx_right.toNat = shape_full.1 then
    some ⟨shape_full.1, ny_left.toNat + g.n2 + ny_right.toNat, nz,
      fun i j k =>
        if j < ny_left.toNat then 0
        else if j < ny_left.toNat + g.n2 then
          (if i < nx_left.toNat then 0
           else if i < nx_left.toNat + g.n1 then
             g.val (i - nx_left.toNat) (j - ny_left.toNat) k
           else 0)
        else 0⟩
  else none

/-- Model.critical_dt (PyModel.py lines 226-234), with the float32 casts of
the original modelled as exact rational arithmetic.  scale is Model.scale and
vmax is np.max(vp).  coeff is 0.38 for a 3-axis shape and 0.42 otherwise;
the result is .001 * int(1000 * dt). -/
def criticalDt (ndim : ℕ) (spacing : List ℚ) (scale vmax : ℚ) : ℚ :=
  let coeff : ℚ := if ndim = 3 then 38 / 100 else 42 / 100
  let dt : ℚ := coeff * listMin spacing / (scale * vmax)
  (1 / 1000) * ((truncQ (1000 * dt) : ℚ))

/-- Model.__init__: shape_pml = np.array(shape) + 2 * nbpml. -/
def grid_shape_pml (shape : List ℕ) (nbpml : ℕ) : List ℕ :=
  shape.map (fun n => n + 2 * nbpml)

/-- Model.__init__: origin_pml = tuple(o - s * nbpml for o, s in zip(origin, spacing)). -/
def grid_origin_pml (origin spacing : List ℚ) (nbpml : ℕ) : List ℚ :=
  List.zipWith (fun o s => o - s * (nbpml : ℚ)) origin spacing

/-- Model.__init__: extent = tuple(np.array(spacing) * (shape_pml - 1)). -/
def grid_extent (spacing : List ℚ) (shape_pml : List ℕ) : List ℚ :=
  List.zipWith (fun s n => s * ((n : ℚ) - 1)) spacing shape_pml

/-- The velocity argument of Model.__init__ / the Model.vp setter: either a
Python scalar or a numpy array. -/
inductive VpIn where
  | const (v : ℚ)
  | arr (a : Arr2)

/-- The value stored in Model.m: either a plain Python number (the scalar
expression 1 / vp ** 2) or a devito Function holding an array. -/
inductive MSlot where
  | expr (q : ℚ)
  | func (d : Arr2)

/-- PyModel.initialize_function for the square slowness on a 2-d grid:
pads 1/(vp*vp) by nbpml points of edge replication on every side (the extra
halo width taken from the external devito Function is not modelled; it only
enlarges the padding in the same edge-replicating way). -/
def initSlowness (nbpml : ℕ) (a : Arr2) : Arr2 :=
  ⟨a.n1 + 2 * nbpml, a.n2 + 2 * nbpml, fun i j =>
    let ci := min (a.n1 - 1) (i - nbpml)
    let cj := min (a.n2 - 1) (j - nbpml)
    1 / (a.val ci cj * a.val ci cj)⟩

/-- The Model.vp setter (PyModel.py lines 246-257).  For an array argument it
runs initialize_function on self.m, which requires self.m to be a devito
Function; for a scalar argument it executes `self.m.data = 1 / vp ** 2`,
which is an attribute assignment and raises AttributeError when self.m is a
plain Python float.  Both failure paths are modelled as none. -/
def vpSetter (nbpml : ℕ) (m : MSlot) (vp : VpIn) : Option MSlot :=
  match vp with
  | .arr a =>
    match m with
    | .func _ => some (.func (initSlowness nbpml a))
    | .expr _ => none
  | .const v =>
    match m with
    | .func d => some (.func ⟨d.n1, d.n2, fun _ _ => 1 / v ^ 2⟩)
    | .expr _ => none

/-- Model.__init__ lines 106-109: the initial value of self.m before the
`self.vp = vp` assignment: a fresh (uninitialised, zero) Function for an
array velocity, the scalar expression 1 / vp ** 2 otherwise. -/
def initMSlot (vp : VpIn) : MSlot :=
  match vp with
  | .arr a => .func ⟨a.n1, a.n2, fun _ _ => 0⟩
  | .const v => .expr (1 / v ^ 2)

/-- Model.__init__ line 118, `self.vp = vp`: the setter runs on the freshly
initialised slowness slot.  none means the constructor raises. -/
def modelInitM (nbpml : ℕ) (vp : VpIn) : Option MSlot :=
  vpSetter nbpml (initMSlot vp) vp

/-
Tag-string encoding (CloudExtras.convert_to_string and friends).  Python
strings are modelled as lists of characters; str() of an element is a
representation function to List Char, instantiated for int below.
-/

/-- Decimal digits of n, most significant first, as characters; str(n) for a
nonnegative Python int. -/
def pyStrNat (n : ℕ) : List Char :=
  if n = 0 then ['0'] else ((Nat.digits 10 n).reverse.map Nat.digitChar)

/-- str(z) for a Python int. -/
def pyStrInt (z : ℤ) : List Char :=
  if z < 0 then '-' :: pyStrNat z.natAbs else pyStrNat z.toNat

/-- Numeric value of a decimal digit character. -/
def charVal (c : Char) : ℕ := c.toNat - 48

/-- int(s) for a string of decimal digits. -/
def parseNat (l : List Char) : ℕ := Nat.ofDigits 10 ((l.map charVal).reverse)

/-- int(s) for an optionally minus-signed string of decimal digits. -/
def parseInt (l : List Char) : ℤ :=
  if l.headD ' ' = '-' then -(parseNat l.tail : ℤ) else (parseNat l : ℤ)

/-- str.split('S'): split a character list at every occurrence of S. -/
def splitS : List Char → List (List Char)
  | [] => [[]]
  | c :: rest =>
    if c = 'S' then [] :: splitS rest
    else
      match splitS rest with
      | [] => [[c]]
      | p :: ps => (c :: p) :: ps

/-- CloudExtras.convert_to_string on a 2-tuple, with r standing for str()
of the element type. -/
def convertToString2 {α : Type} (r : α → List Char) (t : α × α) : List Char :=
  r t.1 ++ 'S' :: r t.2

/-- CloudExtras.convert_to_string on a 3-tuple. -/
def convertToString3 {α : Type} (r : α → List Char) (t : α × α × α) : List Char :=
  r t.1 ++ 'S' :: (r t.2.1 ++ 'S' :: r t.2.2)

/-- CloudExtras.convert_int_from_string / convert_float_from_string, with p
standing for the per-element parser (int() or float()).  The result tuple is
returned as a list; none models the IndexError raised when the split yields
fewer parts than the function indexes. -/
def convertFromString {α : Type} (p : List Char → α) (s : List Char) :
    Option (List α) :=
  match splitS s with
  | p0 :: p1 :: rest =>
    match rest with
    | [] => some [p p0, p p1]
    | p2 :: _ => some [p p0, p p1, p p2]
  | _ => none

/-
Damping initialisation (PyModel.initialize_damp).
-/

/-- PyModel.py line 38: dampcoeff = 1.5 * np.log(1.0 / 0.001) / (40.). -/
noncomputable def dampcoeff : ℝ := 1.5 * Real.log (1 / 0.001) / 40

/-- PyModel.py line 45: pos = np.abs((nbpml - j + 1) / float(nbpml)). -/
noncomputable def dampPos (nbpml j : ℕ) : ℝ :=
  |((nbpml : ℝ) - (j : ℝ) + 1) / (nbpml : ℝ)|

/-- PyModel.py line 46: val = dampcoeff * (pos - sin(2 pi pos) / (2 pi)). -/
noncomputable def dampVal (nbpml j : ℕ) : ℝ :=
  dampcoeff * (dampPos nbpml j -
    Real.sin (2 * Real.pi * dampPos nbpml j) / (2 * Real.pi))

/-- Membership of row r in the numpy slice [a, b) of an axis of length d. -/
def sliceHit (d : ℕ) (a b : ℤ) (r : ℕ) : Prop :=
  npIdx d a ≤ r ∧ r < npIdx d b

instance (d : ℕ) (a b : ℤ) (r : ℕ) : Decidable (sliceHit d a b r) := by
  unfold sliceHit; infer_instance

/-- One slice-update pass of the initialize_damp double loop for axis i and
layer j: data[left slice] += val/spacing[i]; data[right slice] += val/spacing[i],
expressed as the pointwise contribution to the entry at multi-index idx.
dshape is the padded data shape, sp the grid spacing list, mask the flag that
negates val. -/
noncomputable def dampContrib (dshape : List ℕ) (sp : List ℝ) (nbpml : ℕ)
    (mask : Bool) (i j : ℕ) (idx : List ℕ) : ℝ :=
  let d := dshape.getD i 0
  let r := idx.getD i 0
  let v := (if mask then -dampVal nbpml j else dampVal nbpml j) / sp.getD i 1
  (if sliceHit d (j : ℤ) ((j : ℤ) + 1) r then v else 0) +
    (if sliceHit d ((d : ℤ) - (j : ℤ)) ((d : ℤ) - (j : ℤ) + 1) r then v else 0)

/-- The data array built by initialize_damp before the final
initialize_function call: np.ones / np.zeros over the physical shape,
edge-padded by nbpml on every side (padding a constant array keeps it
constant), then the accumulation double loop over axes and layers. -/
noncomputable def dampData (phys : List ℕ) (nbpml : ℕ) (sp : List ℝ)
    (mask : Bool) : List ℕ → ℝ :=
  let dshape := phys.map (fun n => n + 2 * nbpml)
  (List.range dshape.length).foldl
    (fun f i =>
      (List.range nbpml).foldl
        (fun g j => fun idx => g idx + dampContrib dshape sp nbpml mask i j idx)
        f)
    (fun _ => if mask then 1 else 0)

/-
Helper lemmas about listMin / listMax.
-/

lemma foldl_min_or (xs : List ℚ) : ∀ x : ℚ, xs.foldl min x = x ∨ xs.foldl min x ∈ xs := by
  induction xs with
  | nil => intro x; left; rfl
  | cons y ys ih =>
    intro x
    rcases ih (min x y) with h | h
    · rcases min_choice x y with hc | hc
      · left; rw [List.foldl_cons, h, hc]
      · right; rw [List.foldl_cons, h, hc]; exact List.mem_cons_self y ys
    · right; exact List.mem_cons_of_mem y h

lemma foldl_min_le_init (xs : List ℚ) : ∀ x : ℚ, xs.foldl min x ≤ x := by
  induction xs with
  | nil => intro x; exact le_refl x
  | cons y ys ih =>
    intro x
    calc (y :: ys).foldl min x = ys.foldl min (min x y) := by rw [List.foldl_cons]
    _ ≤ min x y := ih (min x y)
    _ ≤ x := min_le_left x y

lemma foldl_min_le_mem (xs : List ℚ) : ∀ (x c : ℚ), c ∈ xs → xs.foldl min x ≤ c := by
  induction xs with
  | nil => intro x c hc; cases hc
  | cons y ys ih =>
    intro x c hc
    rcases List.mem_cons.mp hc with rfl | hc
    · calc (c :: ys).foldl min x = ys.foldl min (min x c) := by rw [List.foldl_cons]
      _ ≤ min x c := foldl_min_le_init ys (min x c)
      _ ≤ c := min_le_right x c
    · exact ih (min x y) c hc

lemma listMin_mem (l : List ℚ) (hl : l ≠ []) : listMin l ∈ l := by
  match l with
  | [] => exact absurd rfl hl
  | x :: xs =>
    rcases foldl_min_or xs x with h | h
    · rw [listMin, h]; exact List.mem_cons_self x xs
    · rw [listMin]; exact List.mem_cons_of_mem x h

lemma listMin_le (l : List ℚ) (c : ℚ) (hc : c ∈ l) : listMin l ≤ c := by
  match l with
  | [] => cases hc
  | x :: xs =>
    rcases List.mem_cons.mp hc with rfl | hc
    · exact foldl_min_le_init xs c
    · exact foldl_min_le_mem xs x c hc

lemma foldl_max_or (xs : List ℚ) : ∀ x : ℚ, xs.foldl max x = x ∨ xs.foldl max x ∈ xs := by
  induction xs with
  | nil => intro x; left; rfl
  | cons y ys ih =>
    intro x
    rcases ih (max x y) with h | h
    · rcases max_choice x y with hc | hc
      · left; rw [List.foldl_cons, h, hc]
      · right; rw [List.foldl_cons, h, hc]; exact List.mem_cons_self y ys
    · right; exact List.mem_cons_of_mem y h

lemma le_foldl_max_init (xs : List ℚ) : ∀ x : ℚ, x ≤ xs.foldl max x := by
  induction xs with
  | nil => intro x; exact le_refl x
  | cons y ys ih =>
    intro x
    calc x ≤ max x y := le_max_left x y
    _ ≤ ys.foldl max (max x y) := ih (max x y)
    _ = (y :: ys).foldl max x := by rw [List.foldl_cons]

lemma le_foldl_max_mem (xs : List ℚ) : ∀ (x c : ℚ), c ∈ xs → c ≤ xs.foldl max x := by
  induction xs with
  | nil => intro x c hc; cases hc
  | cons y ys ih =>
    intro x c hc
    rcases List.mem_cons.mp hc with rfl | hc
    · calc c ≤ max x c := le_max_right x c
      _ ≤ ys.foldl max (max x c) := le_foldl_max_init ys (max x c)
      _ = (c :: ys).foldl max x := by rw [List.foldl_cons]
    · exact ih (max x y) c hc

lemma le_listMax (l : List ℚ) (c : ℚ) (hc : c ∈ l) : c ≤ listMax l := by
  match l with
  | [] => cases hc
  | x :: xs =>
    rcases List.mem_cons.mp hc with rfl | hc
    · exact le_foldl_max_init xs c
    · exact le_foldl_max_mem xs x c hc

lemma listMin_pos (l : List ℚ) (hl : l ≠ []) (h : ∀ x ∈ l, 0 < x) : 0 < listMin l :=
  h (listMin l) (listMin_mem l hl)

/-- C2: Model.critical_dt equals the exact stability estimate floored to
3 decimal places, with coeff 0.38 for 3 axes and 0.42 for 2 axes, and it
never exceeds the unfloored estimate coeff * min(spacing) / (scale * max(vp)). -/
theorem criticalDt_floor_spec (ndim : ℕ) (sp : List ℚ) (scale vmax : ℚ)
    (_hnd : ndim = 2 ∨ ndim = 3) (hsp : sp ≠ []) (hpos : ∀ s ∈ sp, 0 < s)
    (hsc : 0 < scale) (hv : 0 < vmax) :
    criticalDt ndim sp scale vmax =
      ((⌊1000 * ((if ndim = 3 then (38 : ℚ) / 100 else 42 / 100) * listMin sp /
          (scale * vmax))⌋ : ℚ)) / 1000 ∧
    criticalDt ndim sp scale vmax ≤
      (if ndim = 3 then (38 : ℚ) / 100 else 42 / 100) * listMin sp / (scale * vmax) := by
  have hmin : 0 < listMin sp := listMin_pos sp hsp hpos
  have hcoeff : 0 < (if ndim = 3 then (38 : ℚ) / 100 else 42 / 100) := by
    split <;> norm_num
  have hdt : 0 < (if ndim = 3 then (38 : ℚ) / 100 else 42 / 100) * listMin sp /
      (scale * vmax) := div_pos (mul_pos hcoeff hmin) (mul_pos hsc hv)
  have htr : truncQ (1000 * ((if ndim = 3 then (38 : ℚ) / 100 else 42 / 100) *
      listMin sp / (scale * vmax))) =
      ⌊1000 * ((if ndim = 3 then (38 : ℚ) / 100 else 42 / 100) * listMin sp /
        (scale * vmax))⌋ := by
    rw [truncQ, if_pos]
    positivity
  have heq : criticalDt ndim sp scale vmax =
      ((⌊1000 * ((if ndim = 3 then (38 : ℚ) / 100 else 42 / 100) * listMin sp /
        (scale * vmax))⌋ : ℚ)) / 1000 := by
    simp only [criticalDt]
    rw [htr]
    ring
  refine ⟨heq, ?_⟩
  rw [heq]
  rw [div_le_iff₀ (by norm_num : (0 : ℚ) < 1000)]
  calc ((⌊1000 * ((if ndim = 3 then (38 : ℚ) / 100 else 42 / 100) * listMin sp /
        (scale * vmax))⌋ : ℚ))
      ≤ 1000 * ((if ndim = 3 then (38 : ℚ) / 100 else 42 / 100) * listMin sp /
        (scale * vmax)) := Int.floor_le _
    _ = (if ndim = 3 then (38 : ℚ) / 100 else 42 / 100) * listMin sp /
        (scale * vmax) * 1000 := by ring

/-- C2 witness: the spec example, a 2-axis model with constant velocity 2 km/s
and 10 m spacing has critical_dt 2.1 and the floored step stays below the
exact bound. -/
theorem criticalDt_floor_spec_witness :
    ((2 : ℕ) = 2 ∨ (2 : ℕ) = 3) ∧ ([(10 : ℚ), 10] ≠ []) ∧
    criticalDt 2 [(10 : ℚ), 10] 1 2 = 21 / 10 ∧
    criticalDt 2 [(10 : ℚ), 10] 1 2 ≤
      (if (2 : ℕ) = 3 then (38 : ℚ) / 100 else 42 / 100) * listMin [(10 : ℚ), 10] /
        (1 * 2) := by
  have h := criticalDt_floor_spec 2 [(10 : ℚ), 10] 1 2 (Or.inl rfl)
    (by simp)
    (by intro s hs
        simp only [List.mem_cons, List.not_mem_nil, or_false] at hs
        rcases hs with rfl | rfl <;> norm_num)
    (by norm_num) (by norm_num)
  refine ⟨Or.inl rfl, by simp, ?_, h.2⟩
  rw [h.1]
  simp only [listMin, List.foldl]
  norm_num

/-
Helper lemmas for List.getD through map and zipWith.
-/

lemma grid_shape_pml_getD (shape : List ℕ) (nbpml : ℕ) :
    ∀ i, i < shape.length →
      (grid_shape_pml shape nbpml).getD i 0 = shape.getD i 0 + 2 * nbpml := by
  induction shape with
  | nil => intro i h; cases h
  | cons x xs ih =>
    intro i h
    cases i with
    | zero => rfl
    | succ k =>
      have hk : k < xs.length := by
        simpa using Nat.lt_of_succ_lt_succ h
      simpa [grid_shape_pml] using ih k hk

lemma grid_origin_pml_getD (origin spacing : List ℚ) (nbpml : ℕ) :
    ∀ i, i < origin.length → i < spacing.length →
      (grid_origin_pml origin spacing nbpml).getD i 0 =
        origin.getD i 0 - (nbpml : ℚ) * spacing.getD i 0 := by
  induction origin generalizing spacing with
  | nil => intro i h; cases h
  | cons o os ih =>
    intro i h1 h2
    cases spacing with
    | nil => cases h2
    | cons s ss =>
      cases i with
      | zero =>
        simp [grid_origin_pml]
        ring
      | succ k =>
        have hk1 : k < os.length := by simpa using Nat.lt_of_succ_lt_succ h1
        have hk2 : k < ss.length := by simpa using Nat.lt_of_succ_lt_succ h2
        simpa [grid_origin_pml] using ih ss k hk1 hk2

/-- C5: on every axis the extended grid shape is the interior shape plus
twice the boundary width, and the extended grid origin is the interior
origin shifted by boundary_width * spacing. -/
theorem grid_pml_shape_origin (shape : List ℕ) (origin spacing : List ℚ)
    (nbpml i : ℕ) (h1 : i < shape.length) (h2 : i < origin.length)
    (h3 : i < spacing.length) :
    (grid_shape_pml shape nbpml).getD i 0 = shape.getD i 0 + 2 * nbpml ∧
    (grid_origin_pml origin spacing nbpml).getD i 0 =
      origin.getD i 0 - (nbpml : ℚ) * spacing.getD i 0 :=
  ⟨grid_shape_pml_getD shape nbpml i h1,
   grid_origin_pml_getD origin spacing nbpml i h2 h3⟩

/-- C5 witness: interior shape (101, 101) with boundary width 10 and spacing
(10, 10) from origin (0, 0) gives extended shape (121, 121) and extended
origin (-100, -100). -/
theorem grid_pml_shape_origin_witness :
    (0 < [101, 101].length ∧ 1 < [101, 101].length) ∧
    (grid_shape_pml [101, 101] 10).getD 0 0 = 121 ∧
    (grid_shape_pml [101, 101] 10).getD 1 0 = 121 ∧
    (grid_origin_pml [(0 : ℚ), 0] [(10 : ℚ), 10] 10).getD 0 0 = -100 := by
  have h0 := grid_pml_shape_origin [101, 101] [(0 : ℚ), 0] [(10 : ℚ), 10] 10 0
    (by decide) (by decide) (by decide)
  have h1 := grid_pml_shape_origin [101, 101] [(0 : ℚ), 0] [(10 : ℚ), 10] 10 1
    (by decide) (by decide) (by decide)
  refine ⟨⟨by decide, by decide⟩, ?_, ?_, ?_⟩
  · rw [h0.1]; decide
  · rw [h1.1]; decide
  · rw [h0.2]
    norm_num [List.getD]

/-- C6 (code bug): constructing a Model with a constant (non-array)
velocity first stores the scalar slowness expression 1 / vp ** 2, exactly as
the spec describes, but the unconditional `self.vp = vp` assignment then
executes `self.m.data = 1 / vp ** 2` on that plain Python float, which
raises AttributeError, so constant-velocity construction always fails. -/
theorem const_vp_model_crashes :
    initMSlot (VpIn.const 2) = MSlot.expr (1 / 4) ∧
    modelInitM 40 (VpIn.const 2) = none := by
  constructor
  · simp only [initMSlot, MSlot.expr.injEq]
    norm_num
  · rfl

/-
Helper lemmas for the tag-string encoding (C10).
-/

lemma charVal_digitChar (d : ℕ) (hd : d < 10) : charVal (Nat.digitChar d) = d := by
  interval_cases d <;> rfl

lemma digitChar_ne (d : ℕ) (hd : d < 10) :
    Nat.digitChar d ≠ 'S' ∧ Nat.digitChar d ≠ '-' := by
  interval_cases d <;> exact ⟨by decide, by decide⟩

lemma pyStrNat_chars (n : ℕ) :
    ∀ c ∈ pyStrNat n, ∃ d, d < 10 ∧ c = Nat.digitChar d := by
  intro c hc
  by_cases hn : n = 0
  · subst hn
    simp only [pyStrNat, if_true, eq_self_iff_true, List.mem_singleton] at hc
    exact ⟨0, by norm_num, by rw [hc]; rfl⟩
  · simp only [pyStrNat, if_neg hn, List.mem_map, List.mem_reverse] at hc
    obtain ⟨d, hd, rfl⟩ := hc
    exact ⟨d, Nat.digits_lt_base (by norm_num) hd, rfl⟩

lemma noS_pyStrNat (n : ℕ) : 'S' ∉ pyStrNat n := by
  intro h
  obtain ⟨d, hd, hc⟩ := pyStrNat_chars n 'S' h
  exact (digitChar_ne d hd).1 hc.symm

lemma noS_pyStrInt (z : ℤ) : 'S' ∉ pyStrInt z := by
  rw [pyStrInt]
  split
  · intro h
    rcases List.mem_cons.mp h with h | h
    · cases h
    · exact noS_pyStrNat _ h
  · exact noS_pyStrNat _

lemma pyStrNat_ne_nil (n : ℕ) : pyStrNat n ≠ [] := by
  by_cases hn : n = 0
  · subst hn; simp [pyStrNat]
  · simp only [pyStrNat, if_neg hn]
    simp only [ne_eq, List.map_eq_nil_iff, List.reverse_eq_nil_iff]
    exact Nat.digits_ne_nil_iff_ne_zero.mpr hn

lemma parseNat_pyStrNat (n : ℕ) : parseNat (pyStrNat n) = n := by
  by_cases hn : n = 0
  · subst hn
    simp [parseNat, pyStrNat, Nat.ofDigits, charVal]
  · rw [parseNat, pyStrNat, if_neg hn, List.map_map]
    have hmap : ((Nat.digits 10 n).reverse.map (charVal ∘ Nat.digitChar)) =
        (Nat.digits 10 n).reverse.map id := by
      apply List.map_congr_left
      intro d hd
      have hd10 : d < 10 :=
        Nat.digits_lt_base (by norm_num) (List.mem_reverse.mp hd)
      simp [charVal_digitChar d hd10]
    rw [hmap, List.map_id, List.reverse_reverse, Nat.ofDigits_digits]

lemma headD_pyStrNat_ne (n : ℕ) : (pyStrNat n).headD ' ' ≠ '-' := by
  rcases hl : pyStrNat n with _ | ⟨c, rest⟩
  · exact absurd hl (pyStrNat_ne_nil n)
  · have hc : c ∈ pyStrNat n := by rw [hl]; exact List.mem_cons_self c rest
    obtain ⟨d, hd, rfl⟩ := pyStrNat_chars n c hc
    simpa using (digitChar_ne d hd).2

lemma parseInt_pyStrInt (z : ℤ) : parseInt (pyStrInt z) = z := by
  rw [pyStrInt]
  split
  · rename_i hz
    rw [parseInt, if_pos (by rfl), List.tail_cons, parseNat_pyStrNat]
    omega
  · rename_i hz
    rw [parseInt, if_neg (headD_pyStrNat_ne z.toNat), parseNat_pyStrNat]
    omega

lemma splitS_no_S (a : List Char) (ha : 'S' ∉ a) : splitS a = [a] := by
  induction a with
  | nil => rfl
  | cons c rest ih =>
    have hc : c ≠ 'S' := fun h => ha (h ▸ List.mem_cons_self c rest)
    have hrest : 'S' ∉ rest := fun h => ha (List.mem_cons_of_mem c h)
    rw [splitS, if_neg hc, ih hrest]

lemma splitS_append (a b : List Char) (ha : 'S' ∉ a) :
    splitS (a ++ 'S' :: b) = a :: splitS b := by
  induction a with
  | nil =>
    simp [splitS]
  | cons c rest ih =>
    have hc : c ≠ 'S' := fun h => ha (h ▸ List.mem_cons_self c rest)
    have hrest : 'S' ∉ rest := fun h => ha (List.mem_cons_of_mem c h)
    rw [List.cons_append, splitS, if_neg hc, ih hrest]

lemma convert2_roundtrip {F : Type} (r : F → List Char) (p : List Char → F)
    (hp : ∀ x, p (r x) = x) (hs : ∀ x, 'S' ∉ r x) (t : F × F) :
    convertFromString p (convertToString2 r t) = some [t.1, t.2] := by
  rw [convertFromString, convertToString2, splitS_append _ _ (hs t.1),
    splitS_no_S _ (hs t.2)]
  simp [hp]

lemma convert3_roundtrip {F : Type} (r : F → List Char) (p : List Char → F)
    (hp : ∀ x, p (r x) = x) (hs : ∀ x, 'S' ∉ r x) (t : F × F × F) :
    convertFromString p (convertToString3 r t) = some [t.1, t.2.1, t.2.2] := by
  rw [convertFromString, convertToString3, splitS_append _ _ (hs t.1),
    splitS_append _ _ (hs t.2.1), splitS_no_S _ (hs t.2.2)]
  simp [hp]

/-- C10: the S-separated tag encoding is invertible: for every 2- or 3-tuple
of Python ints, parsing convert_to_string with convert_int_from_string
returns exactly the original tuple; and for any element type whose str/parse
pair round-trips and whose representations never contain the separator S
(as is the case for decimal float representations), the 2- and 3-tuple
encodings round-trip as well. -/
theorem tag_string_roundtrip :
    (∀ a b : ℤ,
      convertFromString parseInt (convertToString2 pyStrInt (a, b)) = some [a, b]) ∧
    (∀ a b c : ℤ,
      convertFromString parseInt (convertToString3 pyStrInt (a, b, c)) =
        some [a, b, c]) ∧
    (∀ (F : Type) (r : F → List Char) (p : List Char → F),
      (∀ x, p (r x) = x) → (∀ x, 'S' ∉ r x) →
      (∀ t : F × F, convertFromString p (convertToString2 r t) = some [t.1, t.2]) ∧
      (∀ t : F × F × F,
        convertFromString p (convertToString3 r t) = some [t.1, t.2.1, t.2.2])) := by
  refine ⟨?_, ?_, ?_⟩
  · intro a b
    exact convert2_roundtrip pyStrInt parseInt parseInt_pyStrInt noS_pyStrInt (a, b)
  · intro a b c
    exact convert3_roundtrip pyStrInt parseInt parseInt_pyStrInt noS_pyStrInt (a, b, c)
  · intro F r p hp hs
    exact ⟨convert2_roundtrip r p hp hs, convert3_roundtrip r p hp hs⟩

/-- C10 witness: concrete shape-like and origin-like tuples survive the
round trip, including via the generic representation-parametrised branch
instantiated with the int representation. -/
theorem tag_string_roundtrip_witness :
    convertFromString parseInt (convertToString2 pyStrInt (101, 101)) =
      some [101, 101] ∧
    convertFromString parseInt (convertToString3 pyStrInt (12, 0, -70)) =
      some [12, 0, -70] ∧
    convertFromString parseInt (convertToString2 pyStrInt (7, 9)) = some [7, 9] :=
  ⟨tag_string_roundtrip.1 101 101,
   tag_string_roundtrip.2.1 12 0 (-70),
   (tag_string_roundtrip.2.2 ℤ pyStrInt parseInt parseInt_pyStrInt noS_pyStrInt).1
     (7, 9)⟩

/-
Helper lemmas for the damping profile (C7, C8, C9).
-/

lemma log1000_pos : 0 < Real.log (1 / 0.001) := by
  have h : (1 / (0.001 : ℝ)) = 1000 := by norm_num
  rw [h]
  exact Real.log_pos (by norm_num)

lemma dampcoeff_pos : 0 < dampcoeff := by
  rw [dampcoeff]
  have := log1000_pos
  positivity

lemma dampPos_eval (bw j : ℕ) (hj : j ≤ bw) (hbw : 0 < bw) :
    dampPos bw j = ((bw : ℝ) - (j : ℝ) + 1) / (bw : ℝ) := by
  rw [dampPos]
  apply abs_of_pos
  have hb : (0 : ℝ) < (bw : ℝ) := by exact_mod_cast hbw
  have hjb : (j : ℝ) ≤ (bw : ℝ) := by exact_mod_cast hj
  apply div_pos _ hb
  linarith

/-- C7 (amended): the damping coefficient multiplying every layer value of
the profile is the constant 1.5 * ln(1000) / 40, independent of the supplied
boundary width nbpml (the divisor 40 is hard-coded in the source). -/
theorem dampcoeff_const_spec (nbpml j : ℕ) :
    dampVal nbpml j = (1.5 * Real.log 1000 / 40) *
      (dampPos nbpml j - Real.sin (2 * Real.pi * dampPos nbpml j) / (2 * Real.pi)) := by
  rw [dampVal, dampcoeff]
  norm_num

/-- C7 counterexample: with boundary width 20 the layer value at j = 0 is
not the one the claimed coefficient 1.5 * ln(1000) / boundary_width would
produce, because the code divides by the constant 40 instead. -/
theorem dampcoeff_bw_cex :
    dampVal 20 0 ≠ (1.5 * Real.log 1000 / 20) *
      (dampPos 20 0 - Real.sin (2 * Real.pi * dampPos 20 0) / (2 * Real.pi)) := by
  have hpos : dampPos 20 0 = 21 / 20 := by
    rw [dampPos_eval 20 0 (by norm_num) (by norm_num)]
    norm_num
  have hx : (0 : ℝ) < 2 * Real.pi * (21 / 20) := by
    have := Real.pi_pos
    positivity
  have hsin : Real.sin (2 * Real.pi * (21 / 20)) < 2 * Real.pi * (21 / 20) :=
    Real.sin_lt hx
  have hf : 0 < dampPos 20 0 -
      Real.sin (2 * Real.pi * dampPos 20 0) / (2 * Real.pi) := by
    rw [hpos]
    have h2pi : (0 : ℝ) < 2 * Real.pi := by have := Real.pi_pos; linarith
    rw [sub_pos, div_lt_iff₀ h2pi]
    calc Real.sin (2 * Real.pi * (21 / 20)) < 2 * Real.pi * (21 / 20) := hsin
    _ = 21 / 20 * (2 * Real.pi) := by ring
  have hL : 0 < Real.log 1000 := Real.log_pos (by norm_num)
  intro h
  rw [dampVal, dampcoeff] at h
  have hl : Real.log (1 / (0.001 : ℝ)) = Real.log 1000 := by norm_num
  rw [hl] at h
  nlinarith [mul_pos hL hf, h]

/-- C9 counterexample: for boundary width 2 the profile value at the
innermost boundary layer (j = nbpml - 1 = 1, adjacent to the interior) is
not larger in magnitude than at the outermost layer (j = 0, the domain
edge); the outermost value is larger. -/
theorem damp_taper_cex : ¬ (|dampVal 2 (2 - 1)| > |dampVal 2 0|) := by
  have h2pi : (0 : ℝ) < 2 * Real.pi := by have := Real.pi_pos; linarith
  have hin : dampVal 2 (2 - 1) = dampcoeff := by
    rw [dampVal, dampPos_eval 2 (2 - 1) (by norm_num) (by norm_num)]
    norm_num [Real.sin_two_pi]
  have hout : dampVal 2 0 = dampcoeff * (3 / 2) := by
    rw [dampVal, dampPos_eval 2 0 (by norm_num) (by norm_num)]
    have harg : 2 * Real.pi * (((2 : ℕ) : ℝ) - ((0 : ℕ) : ℝ) + 1) / ((2 : ℕ) : ℝ) =
        ((3 : ℕ) : ℝ) * Real.pi := by push_cast; ring
    have harg2 : 2 * Real.pi * ((((2 : ℕ) : ℝ) - ((0 : ℕ) : ℝ) + 1) / ((2 : ℕ) : ℝ)) =
        ((3 : ℕ) : ℝ) * Real.pi := by push_cast; ring
    rw [harg2, Real.sin_nat_mul_pi]
    push_cast
    ring
  rw [hin, hout]
  have hc := dampcoeff_pos
  rw [abs_of_pos hc, abs_of_pos (by linarith : (0 : ℝ) < dampcoeff * (3 / 2))]
  push_neg
  linarith

/-- C9 (amended): for every boundary width of at least 2, the damping
profile value at the outermost boundary layer (j = 0, the domain edge) is
strictly larger in magnitude than at the innermost layer
(j = nbpml - 1, adjacent to the interior): the taper decays toward the
interior, not toward the edge. -/
theorem damp_taper_outer_gt_inner (nbpml : ℕ) (h2 : 2 ≤ nbpml) :
    |dampVal nbpml 0| > |dampVal nbpml (nbpml - 1)| := by
  have hbw : 0 < nbpml := by omega
  have hB : (2 : ℝ) ≤ (nbpml : ℝ) := by exact_mod_cast h2
  have hB0 : (0 : ℝ) < (nbpml : ℝ) := by linarith
  have hpi := Real.pi_pos
  have h2pi : (0 : ℝ) < 2 * Real.pi := by linarith
  have hcast : ((nbpml - 1 : ℕ) : ℝ) = (nbpml : ℝ) - 1 := by
    have := Nat.cast_sub (by omega : 1 ≤ nbpml) (R := ℝ)
    simpa using this
  have hpos_out : dampPos nbpml 0 = ((nbpml : ℝ) + 1) / (nbpml : ℝ) := by
    rw [dampPos_eval nbpml 0 (by omega) hbw]
    norm_num
  have hpos_in : dampPos nbpml (nbpml - 1) = 2 / (nbpml : ℝ) := by
    rw [dampPos_eval nbpml (nbpml - 1) (by omega) hbw, hcast]
    ring_nf
  have hsin_out : Real.sin (2 * Real.pi * dampPos nbpml 0) =
      Real.sin (2 * Real.pi / (nbpml : ℝ)) := by
    rw [hpos_out]
    have harg : 2 * Real.pi * (((nbpml : ℝ) + 1) / (nbpml : ℝ)) =
        2 * Real.pi / (nbpml : ℝ) + 2 * Real.pi := by
      field_simp
      ring
    rw [harg, Real.sin_add_two_pi]
  have hsin_in : Real.sin (2 * Real.pi * dampPos nbpml (nbpml - 1)) =
      Real.sin (4 * Real.pi / (nbpml : ℝ)) := by
    rw [hpos_in]
    have harg : 2 * Real.pi * (2 / (nbpml : ℝ)) = 4 * Real.pi / (nbpml : ℝ) := by
      ring
    rw [harg]
  have hs1_le : Real.sin (2 * Real.pi / (nbpml : ℝ)) ≤ 1 := Real.sin_le_one _
  have hs2_ge : -1 ≤ Real.sin (4 * Real.pi / (nbpml : ℝ)) := Real.neg_one_le_sin _
  have hs2_lt : Real.sin (4 * Real.pi / (nbpml : ℝ)) < 4 * Real.pi / (nbpml : ℝ) :=
    Real.sin_lt (by positivity)
  have hf_in_pos : 0 < dampPos nbpml (nbpml - 1) -
      Real.sin (2 * Real.pi * dampPos nbpml (nbpml - 1)) / (2 * Real.pi) := by
    rw [hsin_in, hpos_in, sub_pos, div_lt_iff₀ h2pi]
    calc Real.sin (4 * Real.pi / (nbpml : ℝ)) < 4 * Real.pi / (nbpml : ℝ) := hs2_lt
    _ = 2 / (nbpml : ℝ) * (2 * Real.pi) := by field_simp; ring
  have hmain : dampPos nbpml (nbpml - 1) -
      Real.sin (2 * Real.pi * dampPos nbpml (nbpml - 1)) / (2 * Real.pi) <
      dampPos nbpml 0 - Real.sin (2 * Real.pi * dampPos nbpml 0) / (2 * Real.pi) := by
    rw [hsin_in, hsin_out, hpos_in, hpos_out]
    have hgap : (1 : ℝ) / 2 ≤ ((nbpml : ℝ) + 1) / (nbpml : ℝ) - 2 / (nbpml : ℝ) := by
      rw [div_sub_div_same, le_div_iff₀ hB0]
      linarith
    have hkey : Real.sin (2 * Real.pi / (nbpml : ℝ)) -
        Real.sin (4 * Real.pi / (nbpml : ℝ)) ≤ 2 := by linarith
    have hsin_gap : (Real.sin (2 * Real.pi / (nbpml : ℝ)) -
        Real.sin (4 * Real.pi / (nbpml : ℝ))) / (2 * Real.pi) ≤ 2 / (2 * Real.pi) := by
      gcongr
    have h2div : (2 : ℝ) / (2 * Real.pi) = 1 / Real.pi := by
      field_simp
    have hpi3 : (1 : ℝ) / Real.pi < 1 / 3 :=
      one_div_lt_one_div_of_lt (by norm_num) Real.pi_gt_three
    have hsplit : (Real.sin (2 * Real.pi / (nbpml : ℝ)) -
        Real.sin (4 * Real.pi / (nbpml : ℝ))) / (2 * Real.pi) =
        Real.sin (2 * Real.pi / (nbpml : ℝ)) / (2 * Real.pi) -
        Real.sin (4 * Real.pi / (nbpml : ℝ)) / (2 * Real.pi) := sub_div _ _ _
    rw [hsplit, h2div] at hsin_gap
    linarith
  have hf_out_pos : 0 < dampPos nbpml 0 -
      Real.sin (2 * Real.pi * dampPos nbpml 0) / (2 * Real.pi) :=
    lt_trans hf_in_pos hmain
  have hc := dampcoeff_pos
  rw [dampVal, dampVal, abs_of_pos (mul_pos hc hf_out_pos),
    abs_of_pos (mul_pos hc hf_in_pos)]
  exact mul_lt_mul_of_pos_left hmain hc

/-- C9 witness: with boundary width 3 the outermost layer value dominates
the innermost one in magnitude. -/
theorem damp_taper_outer_gt_inner_witness :
    |dampVal 3 0| > |dampVal 3 (3 - 1)| :=
  damp_taper_outer_gt_inner 3 (by decide)

lemma foldl_point_add {α : Type} (c : α → List ℕ → ℝ) (l : List α) :
    ∀ (f : List ℕ → ℝ) (idx : List ℕ),
      (l.foldl (fun g a => fun x => g x + c a x) f) idx =
        f idx + (l.map (fun a => c a idx)).sum := by
  induction l with
  | nil => intro f idx; simp
  | cons a as ih =>
    intro f idx
    rw [List.foldl_cons, ih]
    simp [add_assoc]

lemma sum_map_add (l : List ℕ) (f g : ℕ → ℝ) :
    (l.map (fun j => f j + g j)).sum = (l.map f).sum + (l.map g).sum := by
  induction l with
  | nil => simp
  | cons a as ih => simp [ih]; ring

lemma sum_range_left (n : ℕ) (w : ℕ → ℝ) (r : ℕ) :
    ((List.range n).map (fun j => if r = j then w j else 0)).sum =
      if r < n then w r else 0 := by
  induction n with
  | zero => simp
  | succ k ih =>
    rw [List.range_succ, List.map_append, List.sum_append, ih]
    by_cases h1 : r = k
    · subst h1
      simp [lt_irrefl]
    · by_cases h2 : r < k
      · have h3 : r < k + 1 := by omega
        simp [h2, h3, h1]
      · have h3 : ¬ r < k + 1 := by omega
        simp [h2, h3, h1]

lemma sum_range_right (d : ℕ) (w : ℕ → ℝ) (r : ℕ) :
    ∀ n, n ≤ d →
      ((List.range n).map (fun j => if 1 ≤ j ∧ r = d - j then w j else 0)).sum =
        if d - n < r ∧ r < d then w (d - r) else 0 := by
  intro n
  induction n with
  | zero =>
    intro h
    simp only [List.range_zero, List.map_nil, List.sum_nil]
    rw [if_neg (by omega)]
  | succ k ih =>
    intro hk
    rw [List.range_succ, List.map_append, List.sum_append, ih (by omega)]
    simp only [List.map_cons, List.map_nil, List.sum_cons, List.sum_nil, add_zero]
    by_cases hA : 1 ≤ k ∧ r = d - k
    · obtain ⟨hk1, hr⟩ := hA
      have hnot : ¬ (d - k < r ∧ r < d) := by omega
      have hyes : d - (k + 1) < r ∧ r < d := by omega
      rw [if_neg hnot, if_pos (⟨hk1, hr⟩ : 1 ≤ k ∧ r = d - k), if_pos hyes, zero_add]
      congr 1
      omega
    · by_cases hB : d - k < r ∧ r < d
      · have hyes : d - (k + 1) < r ∧ r < d := by omega
        rw [if_pos hB, if_neg hA, if_pos hyes, add_zero]
      · have hno : ¬ (d - (k + 1) < r ∧ r < d) := by omega
        rw [if_neg hB, if_neg hA, if_neg hno, add_zero]

lemma dampContrib_eval (dshape : List ℕ) (sp : List ℝ) (nbpml : ℕ) (mask : Bool)
    (i j : ℕ) (idx : List ℕ) (hj : j < nbpml) (hd : nbpml ≤ dshape.getD i 0) :
    dampContrib dshape sp nbpml mask i j idx =
      (if idx.getD i 0 = j then
        (if mask then -dampVal nbpml j else dampVal nbpml j) / sp.getD i 1 else 0) +
      (if 1 ≤ j ∧ idx.getD i 0 = dshape.getD i 0 - j then
        (if mask then -dampVal nbpml j else dampVal nbpml j) / sp.getD i 1 else 0) := by
  have hleft : sliceHit (dshape.getD i 0) (j : ℤ) ((j : ℤ) + 1) (idx.getD i 0) ↔
      idx.getD i 0 = j := by
    simp only [sliceHit, npIdx]
    split_ifs <;> omega
  have hright : sliceHit (dshape.getD i 0) ((dshape.getD i 0 : ℤ) - (j : ℤ))
      ((dshape.getD i 0 : ℤ) - (j : ℤ) + 1) (idx.getD i 0) ↔
      (1 ≤ j ∧ idx.getD i 0 = dshape.getD i 0 - j) := by
    simp only [sliceHit, npIdx]
    split_ifs <;> omega
  rw [dampContrib]
  rw [if_congr hleft rfl rfl, if_congr hright rfl rfl]

lemma dampData_apply (phys : List ℕ) (nbpml : ℕ) (sp : List ℝ) (mask : Bool)
    (idx : List ℕ) :
    dampData phys nbpml sp mask idx = (if mask then (1 : ℝ) else 0) +
      ((List.range phys.length).map (fun i =>
        ((List.range nbpml).map (fun j =>
          dampContrib (phys.map (fun n => n + 2 * nbpml)) sp nbpml mask i j idx)).sum)).sum := by
  rw [dampData]
  have hupd : (fun (f : List ℕ → ℝ) (i : ℕ) =>
      (List.range nbpml).foldl
        (fun g j => fun x =>
          g x + dampContrib (phys.map (fun n => n + 2 * nbpml)) sp nbpml mask i j x)
        f) =
      (fun (f : List ℕ → ℝ) (i : ℕ) => fun x => f x +
        ((List.range nbpml).map (fun j =>
          dampContrib (phys.map (fun n => n + 2 * nbpml)) sp nbpml mask i j x)).sum) := by
    funext f i
    funext x
    exact foldl_point_add _ _ f x
  rw [hupd, foldl_point_add
    (fun i x => ((List.range nbpml).map (fun j =>
      dampContrib (phys.map (fun n => n + 2 * nbpml)) sp nbpml mask i j x)).sum)
    (List.range (phys.map (fun n => n + 2 * nbpml)).length) _ idx]
  rw [List.length_map]

/-- C8 (amended): exact per-entry characterisation of the damping data.
On every axis i the rows 0 .. nbpml-1 receive the layer values
val(0) .. val(nbpml-1) divided by spacing[i], while on the far side only the
rows d-1 down to d-nbpml+1 receive val(1) .. val(nbpml-1): the far-side slice
of layer j = 0 is data[d : d+1], which is empty, so the two sides are not
mirror images of each other (the far edge row d-1 holds val(1), the near
edge row 0 holds val(0), and row d-nbpml receives nothing).  Interior rows
(nbpml .. d-nbpml) receive no contribution and keep the initial value
1 (mask) or 0 (layer). -/
theorem damp_data_characterization (phys : List ℕ) (nbpml : ℕ) (sp : List ℝ)
    (mask : Bool) (idx : List ℕ) :
    dampData phys nbpml sp mask idx = (if mask then (1 : ℝ) else 0) +
      ((List.range phys.length).map (fun i =>
        (if idx.getD i 0 < nbpml then
          (if mask then -dampVal nbpml (idx.getD i 0)
           else dampVal nbpml (idx.getD i 0)) / sp.getD i 1
         else 0) +
        (if phys.getD i 0 + nbpml < idx.getD i 0 ∧
            idx.getD i 0 < phys.getD i 0 + 2 * nbpml then
          (if mask then -dampVal nbpml (phys.getD i 0 + 2 * nbpml - idx.getD i 0)
           else dampVal nbpml (phys.getD i 0 + 2 * nbpml - idx.getD i 0)) / sp.getD i 1
         else 0))).sum := by
  rw [dampData_apply]
  congr 1
  apply congrArg
  apply List.map_congr_left
  intro i hi
  have hi' : i < phys.length := List.mem_range.mp hi
  have hget : (phys.map (fun n => n + 2 * nbpml)).getD i 0 = phys.getD i 0 + 2 * nbpml :=
    grid_shape_pml_getD phys nbpml i hi'
  have hstep : ((List.range nbpml).map (fun j =>
      dampContrib (phys.map (fun n => n + 2 * nbpml)) sp nbpml mask i j idx)) =
      ((List.range nbpml).map (fun j =>
        (if idx.getD i 0 = j then
          (if mask then -dampVal nbpml j else dampVal nbpml j) / sp.getD i 1 else 0) +
        (if 1 ≤ j ∧ idx.getD i 0 = (phys.getD i 0 + 2 * nbpml) - j then
          (if mask then -dampVal nbpml j else dampVal nbpml j) / sp.getD i 1 else 0))) := by
    apply List.map_congr_left
    intro j hj
    have hj' : j < nbpml := List.mem_range.mp hj
    rw [dampContrib_eval _ _ _ _ _ _ _ hj' (by rw [hget]; omega), hget]
  rw [hstep, sum_map_add, sum_range_left, sum_range_right
    (phys.getD i 0 + 2 * nbpml) _ (idx.getD i 0) nbpml (by omega)]
  rw [show phys.getD i 0 + 2 * nbpml - nbpml = phys.getD i 0 + nbpml from by omega]

lemma dampVal_one_zero : dampVal 1 0 = dampcoeff * 2 := by
  rw [dampVal, dampPos_eval 1 0 (by norm_num) (by norm_num)]
  have harg : 2 * Real.pi * ((((1 : ℕ) : ℝ) - ((0 : ℕ) : ℝ) + 1) / ((1 : ℕ) : ℝ)) =
      ((4 : ℕ) : ℝ) * Real.pi := by
    push_cast
    ring
  rw [harg, Real.sin_nat_mul_pi]
  push_cast
  ring

/-- C8 counterexample: with boundary width 1, physical shape (3, 3) and unit
spacing, the accumulated damping data is not symmetric between the two sides
of axis 0: entry (0, 2) receives the layer value while its mirror entry
(4, 2) receives nothing, because the far-side slice for layer j = 0 is
data[5 : 6] on an axis of length 5, which is empty. -/
theorem damp_symmetry_cex :
    dampData [3, 3] 1 [(1 : ℝ), 1] false [0, 2] ≠
      dampData [3, 3] 1 [(1 : ℝ), 1] false [4, 2] := by
  rw [dampData_apply, dampData_apply]
  norm_num [dampContrib, sliceHit, npIdx, List.range_succ, dampVal_one_zero]
  intro h
  have := dampcoeff_pos
  linarith

/-
Helper lemmas for the aperture restriction (C1, C3, C4).
-/

lemma axis_facts (dx lo hi : ℚ) (n1 : ℕ) (hdx : 0 < dx) (_hn : 1 ≤ n1)
    (hlo : 0 ≤ lo) (hlh : lo ≤ hi) (hhi : hi ≤ ((n1 : ℚ) - 1) * dx) :
    0 ≤ ⌊lo / dx⌋ ∧ ⌊lo / dx⌋ ≤ ⌊hi / dx⌋ ∧ ⌊hi / dx⌋ ≤ (n1 : ℤ) - 1 ∧
    truncQ (lo / dx) = ⌊lo / dx⌋ ∧ truncQ (hi / dx) = ⌊hi / dx⌋ ∧
    ((⌊lo / dx⌋ : ℚ) * dx ≤ lo) ∧ ((⌊hi / dx⌋ : ℚ) * dx ≤ hi) ∧
    (hi - dx < (⌊hi / dx⌋ : ℚ) * dx) ∧
    npIdx n1 (⌊lo / dx⌋) = ⌊lo / dx⌋.toNat ∧
    npIdx n1 (⌊hi / dx⌋ + 1) = ⌊hi / dx⌋.toNat + 1 ∧
    truncQ (((⌊lo / dx⌋ : ℚ) * dx) / dx) = ⌊lo / dx⌋ := by
  have hdiv0 : 0 ≤ lo / dx := div_nonneg hlo hdx.le
  have hdiv0' : 0 ≤ hi / dx := div_nonneg (hlo.trans hlh) hdx.le
  have hfl0 : 0 ≤ ⌊lo / dx⌋ := Int.floor_nonneg.mpr hdiv0
  have hdivle : lo / dx ≤ hi / dx := by gcongr
  have hmono : ⌊lo / dx⌋ ≤ ⌊hi / dx⌋ := Int.floor_le_floor hdivle
  have hub : ⌊hi / dx⌋ ≤ (n1 : ℤ) - 1 := by
    have h1 : hi / dx ≤ (n1 : ℚ) - 1 := (div_le_iff₀ hdx).mpr hhi
    have h2 : ((n1 : ℚ) - 1) = (((n1 : ℤ) - 1 : ℤ) : ℚ) := by push_cast; ring
    have h3 := Int.floor_le_floor (h2 ▸ h1)
    rwa [Int.floor_intCast] at h3
  have htr1 : truncQ (lo / dx) = ⌊lo / dx⌋ := by rw [truncQ, if_pos hdiv0]
  have htr2 : truncQ (hi / dx) = ⌊hi / dx⌋ := by rw [truncQ, if_pos hdiv0']
  have hfl_le : (⌊lo / dx⌋ : ℚ) * dx ≤ lo := by
    have := Int.floor_le (lo / dx)
    calc (⌊lo / dx⌋ : ℚ) * dx ≤ lo / dx * dx := by
          exact mul_le_mul_of_nonneg_right this hdx.le
    _ = lo := div_mul_cancel₀ lo hdx.ne'
  have hfh_le : (⌊hi / dx⌋ : ℚ) * dx ≤ hi := by
    have := Int.floor_le (hi / dx)
    calc (⌊hi / dx⌋ : ℚ) * dx ≤ hi / dx * dx := by
          exact mul_le_mul_of_nonneg_right this hdx.le
    _ = hi := div_mul_cancel₀ hi hdx.ne'
  have hlt : hi - dx < (⌊hi / dx⌋ : ℚ) * dx := by
    have h1 : hi / dx < (⌊hi / dx⌋ : ℚ) + 1 := Int.lt_floor_add_one _
    have h2 : hi < ((⌊hi / dx⌋ : ℚ) + 1) * dx := by
      calc hi = hi / dx * dx := (div_mul_cancel₀ hi hdx.ne').symm
      _ < ((⌊hi / dx⌋ : ℚ) + 1) * dx := by
          exact mul_lt_mul_of_pos_right h1 hdx
    nlinarith
  have hnp1 : npIdx n1 (⌊lo / dx⌋) = ⌊lo / dx⌋.toNat := by
    rw [npIdx, if_neg (by omega)]
    exact min_eq_left (by omega)
  have hnp2 : npIdx n1 (⌊hi / dx⌋ + 1) = ⌊hi / dx⌋.toNat + 1 := by
    rw [npIdx, if_neg (by omega)]
    have h1 : (⌊hi / dx⌋ + 1).toNat = ⌊hi / dx⌋.toNat + 1 := by omega
    rw [h1]
    exact min_eq_left (by omega)
  have htr3 : truncQ (((⌊lo / dx⌋ : ℚ) * dx) / dx) = ⌊lo / dx⌋ := by
    rw [mul_div_cancel_right₀ _ hdx.ne', truncQ,
      if_pos (by exact_mod_cast hfl0 : (0 : ℚ) ≤ (⌊lo / dx⌋ : ℚ)), Int.floor_intCast]
  exact ⟨hfl0, hmono, hub, htr1, htr2, hfl_le, hfh_le, hlt, hnp1, hnp2, htr3⟩

lemma restrict2d_spec (sx gx : List ℚ) (m : Arr2) (dx dz oz buf lo hi : ℚ) (a b : ℤ)
    (hdx : 0 < dx) (hn : 1 ≤ m.n1)
    (hlo : lo = max 0 (min (listMin sx) (listMin gx) - buf))
    (hhi : hi = min (((m.n1 : ℚ) - 1) * dx) (max (listMax sx) (listMax gx) + buf))
    (hlh : lo ≤ hi)
    (ha : a = ⌊lo / dx⌋) (hb : b = ⌊hi / dx⌋) :
    (restrict2d sx gx m (dx, dz) (0, oz) buf).1.n1 = (b - a).toNat + 1 ∧
    (restrict2d sx gx m (dx, dz) (0, oz) buf).1.n2 = m.n2 ∧
    (∀ i j, (restrict2d sx gx m (dx, dz) (0, oz) buf).1.val i j =
      m.val (a.toNat + i) j) ∧
    (restrict2d sx gx m (dx, dz) (0, oz) buf).2.1 = ((b - a).toNat + 1, m.n2) ∧
    (restrict2d sx gx m (dx, dz) (0, oz) buf).2.2 = ((a : ℚ) * dx, oz) := by
  have h0lo : 0 ≤ lo := by rw [hlo]; exact le_max_left 0 _
  have hhi' : hi ≤ ((m.n1 : ℚ) - 1) * dx := by rw [hhi]; exact min_le_left _ _
  obtain ⟨hfl0, hmono, hub, htr1, htr2, hfl_le, hfh_le, hlt, hnp1, hnp2, htr3⟩ :=
    axis_facts dx lo hi m.n1 hdx hn h0lo hlh hhi'
  have hshape : npIdx m.n1 (truncQ (hi / dx) + 1) - npIdx m.n1 (truncQ (lo / dx)) =
      (b - a).toNat + 1 := by
    rw [htr1, htr2, hnp1, hnp2, ha, hb]
    omega
  simp only [restrict2d, zero_add, hlo.symm, hhi.symm]
  refine ⟨?_, ?_, ?_, ?_, ?_⟩
  · exact hshape
  · trivial
  · intro i j
    rw [htr1, hnp1, ha]
  · rw [hshape]
  · rw [htr1, ha]

lemma restrict3d_spec (sx gx sy gy : List ℚ) (m : Arr3) (dx dy dz oz buf : ℚ)
    (lox hix loy hiy : ℚ) (a1 b1 a2 b2 : ℤ)
    (hdx : 0 < dx) (hdy : 0 < dy) (hn1 : 1 ≤ m.n1) (hn2 : 1 ≤ m.n2)
    (hlox : lox = max 0 (min (listMin sx) (listMin gx) - buf))
    (hhix : hix = min (((m.n1 : ℚ) - 1) * dx) (max (listMax sx) (listMax gx) + buf))
    (hloy : loy = max 0 (min (listMin sy) (listMin gy) - buf))
    (hhiy : hiy = min (((m.n2 : ℚ) - 1) * dy) (max (listMax sy) (listMax gy) + buf))
    (hlhx : lox ≤ hix) (hlhy : loy ≤ hiy)
    (ha1 : a1 = ⌊lox / dx⌋) (hb1 : b1 = ⌊hix / dx⌋)
    (ha2 : a2 = ⌊loy / dy⌋) (hb2 : b2 = ⌊hiy / dy⌋) :
    (restrict3d sx gx sy gy m (dx, dy, dz) (0, 0, oz) buf).1.n1 = (b1 - a1).toNat + 1 ∧
    (restrict3d sx gx sy gy m (dx, dy, dz) (0, 0, oz) buf).1.n2 = (b2 - a2).toNat + 1 ∧
    (restrict3d sx gx sy gy m (dx, dy, dz) (0, 0, oz) buf).1.n3 = m.n3 ∧
    (∀ i j k, (restrict3d sx gx sy gy m (dx, dy, dz) (0, 0, oz) buf).1.val i j k =
      m.val (a1.toNat + i) (a2.toNat + j) k) ∧
    (restrict3d sx gx sy gy m (dx, dy, dz) (0, 0, oz) buf).2.1 =
      ((b1 - a1).toNat + 1, (b2 - a2).toNat + 1, m.n3) ∧
    (restrict3d sx gx sy gy m (dx, dy, dz) (0, 0, oz) buf).2.2 =
      ((a1 : ℚ) * dx, (a2 : ℚ) * dy, oz) := by
  have h0lox : 0 ≤ lox := by rw [hlox]; exact le_max_left 0 _
  have hhix' : hix ≤ ((m.n1 : ℚ) - 1) * dx := by rw [hhix]; exact min_le_left _ _
  have h0loy : 0 ≤ loy := by rw [hloy]; exact le_max_left 0 _
  have hhiy' : hiy ≤ ((m.n2 : ℚ) - 1) * dy := by rw [hhiy]; exact min_le_left _ _
  obtain ⟨hfl0x, hmonox, hubx, htr1x, htr2x, hfl_lex, hfh_lex, hltx, hnp1x, hnp2x, htr3x⟩ :=
    axis_facts dx lox hix m.n1 hdx hn1 h0lox hlhx hhix'
  obtain ⟨hfl0y, hmonoy, huby, htr1y, htr2y, hfl_ley, hfh_ley, hlty, hnp1y, hnp2y, htr3y⟩ :=
    axis_facts dy loy hiy m.n2 hdy hn2 h0loy hlhy hhiy'
  have hshapex : npIdx m.n1 (truncQ (hix / dx) + 1) - npIdx m.n1 (truncQ (lox / dx)) =
      (b1 - a1).toNat + 1 := by
    rw [htr1x, htr2x, hnp1x, hnp2x, ha1, hb1]
    omega
  have hshapey : npIdx m.n2 (truncQ (hiy / dy) + 1) - npIdx m.n2 (truncQ (loy / dy)) =
      (b2 - a2).toNat + 1 := by
    rw [htr1y, htr2y, hnp1y, hnp2y, ha2, hb2]
    omega
  simp only [restrict3d, zero_add, hlox.symm, hhix.symm, hloy.symm, hhiy.symm]
  refine ⟨hshapex, hshapey, trivial, ?_, ?_, ?_⟩
  · intro i j k
    rw [htr1x, hnp1x, ha1, htr1y, hnp1y, ha2]
  · rw [hshapex, hshapey]
  · rw [htr1x, ha1, htr1y, ha2]

lemma axis_bounds (dx lo hi : ℚ) (n1 : ℕ) (a b : ℤ) (sh : ℕ)
    (hdx : 0 < dx) (hn : 1 ≤ n1) (hlo : 0 ≤ lo) (hlh : lo ≤ hi)
    (hhi : hi ≤ ((n1 : ℚ) - 1) * dx)
    (ha : a = ⌊lo / dx⌋) (hb : b = ⌊hi / dx⌋) (hsh : sh = (b - a).toNat + 1) :
    (a : ℚ) * dx ≤ lo ∧
    (a : ℚ) * dx + ((sh : ℚ) - 1) * dx ≤ hi ∧
    hi - dx < (a : ℚ) * dx + ((sh : ℚ) - 1) * dx := by
  obtain ⟨hfl0, hmono, hub, htr1, htr2, hfl_le, hfh_le, hlt, h9, h10, h11⟩ :=
    axis_facts dx lo hi n1 hdx hn hlo hlh hhi
  have hab : a ≤ b := by rw [ha, hb]; exact hmono
  have hcast : ((sh : ℚ) - 1) = ((b : ℚ) - (a : ℚ)) := by
    have h1 : ((b - a).toNat : ℤ) = b - a := Int.toNat_of_nonneg (by omega)
    have h2 : (((b - a).toNat) : ℚ) = (b : ℚ) - (a : ℚ)  := by
      exact_mod_cast congrArg (fun z : ℤ => (z : ℚ)) h1
    rw [hsh]
    push_cast
    rw [h2]
    ring
  have hend : (a : ℚ) * dx + ((sh : ℚ) - 1) * dx = (b : ℚ) * dx := by
    rw [hcast]; ring
  refine ⟨?_, ?_, ?_⟩
  · rw [ha]; exact hfl_le
  · rw [hend, hb]; exact hfh_le
  · rw [hend, hb]; exact hlt

/-- C3 (amended): with the restricted axes at physical origin 0 (the code
divides absolute coordinates, not origin-relative ones, by the spacing), the
returned sub-domain starts at or below the clipped lower bound
max(origin, min coords - buffer) and its upper end is the clipped upper
bound min(domain extent, max coords + buffer) rounded down to the grid: it
is within one grid spacing below that bound but may fall short of it, so
every source/receiver coordinate is covered from below exactly and from
above only up to one spacing.  Stated for the 2-axis and the 3-axis branch
(x and y axes; the depth axis is never restricted). -/
theorem restrict_aperture_containment :
    (∀ (sx gx : List ℚ) (m : Arr2) (dx dz oz buf : ℚ),
      0 < dx → 1 ≤ m.n1 → 0 ≤ buf → sx ≠ [] → gx ≠ [] →
      max 0 (min (listMin sx) (listMin gx) - buf) ≤
        min (((m.n1 : ℚ) - 1) * dx) (max (listMax sx) (listMax gx) + buf) →
      (∀ c : ℚ, c ∈ sx ∨ c ∈ gx → 0 ≤ c ∧ c ≤ ((m.n1 : ℚ) - 1) * dx) →
      (restrict2d sx gx m (dx, dz) (0, oz) buf).2.2.1 ≤
        max 0 (min (listMin sx) (listMin gx) - buf) ∧
      (restrict2d sx gx m (dx, dz) (0, oz) buf).2.2.1 +
          (((restrict2d sx gx m (dx, dz) (0, oz) buf).2.1.1 : ℚ) - 1) * dx ≤
        min (((m.n1 : ℚ) - 1) * dx) (max (listMax sx) (listMax gx) + buf) ∧
      min (((m.n1 : ℚ) - 1) * dx) (max (listMax sx) (listMax gx) + buf) - dx <
        (restrict2d sx gx m (dx, dz) (0, oz) buf).2.2.1 +
          (((restrict2d sx gx m (dx, dz) (0, oz) buf).2.1.1 : ℚ) - 1) * dx ∧
      (∀ c : ℚ, c ∈ sx ∨ c ∈ gx →
        (restrict2d sx gx m (dx, dz) (0, oz) buf).2.2.1 ≤ c ∧
        c < (restrict2d sx gx m (dx, dz) (0, oz) buf).2.2.1 +
          (((restrict2d sx gx m (dx, dz) (0, oz) buf).2.1.1 : ℚ) - 1) * dx + dx)) ∧
    (∀ (sx gx sy gy : List ℚ) (m : Arr3) (dx dy dz oz buf : ℚ),
      0 < dx → 0 < dy → 1 ≤ m.n1 → 1 ≤ m.n2 → 0 ≤ buf →
      max 0 (min (listMin sx) (listMin gx) - buf) ≤
        min (((m.n1 : ℚ) - 1) * dx) (max (listMax sx) (listMax gx) + buf) →
      max 0 (min (listMin sy) (listMin gy) - buf) ≤
        min (((m.n2 : ℚ) - 1) * dy) (max (listMax sy) (listMax gy) + buf) →
      (∀ c : ℚ, c ∈ sx ∨ c ∈ gx → 0 ≤ c ∧ c ≤ ((m.n1 : ℚ) - 1) * dx) →
      (∀ c : ℚ, c ∈ sy ∨ c ∈ gy → 0 ≤ c ∧ c ≤ ((m.n2 : ℚ) - 1) * dy) →
      ((restrict3d sx gx sy gy m (dx, dy, dz) (0, 0, oz) buf).2.2.1 ≤
        max 0 (min (listMin sx) (listMin gx) - buf) ∧
       (restrict3d sx gx sy gy m (dx, dy, dz) (0, 0, oz) buf).2.2.1 +
          (((restrict3d sx gx sy gy m (dx, dy, dz) (0, 0, oz) buf).2.1.1 : ℚ) - 1) * dx ≤
        min (((m.n1 : ℚ) - 1) * dx) (max (listMax sx) (listMax gx) + buf) ∧
       min (((m.n1 : ℚ) - 1) * dx) (max (listMax sx) (listMax gx) + buf) - dx <
        (restrict3d sx gx sy gy m (dx, dy, dz) (0, 0, oz) buf).2.2.1 +
          (((restrict3d sx gx sy gy m (dx, dy, dz) (0, 0, oz) buf).2.1.1 : ℚ) - 1) * dx ∧
       (∀ c : ℚ, c ∈ sx ∨ c ∈ gx →
         (restrict3d sx gx sy gy m (dx, dy, dz) (0, 0, oz) buf).2.2.1 ≤ c ∧
         c < (restrict3d sx gx sy gy m (dx, dy, dz) (0, 0, oz) buf).2.2.1 +
          (((restrict3d sx gx sy gy m (dx, dy, dz) (0, 0, oz) buf).2.1.1 : ℚ) - 1) * dx + dx)) ∧
      ((restrict3d sx gx sy gy m (dx, dy, dz) (0, 0, oz) buf).2.2.2.1 ≤
        max 0 (min (listMin sy) (listMin gy) - buf) ∧
       (restrict3d sx gx sy gy m (dx, dy, dz) (0, 0, oz) buf).2.2.2.1 +
          (((restrict3d sx gx sy gy m (dx, dy, dz) (0, 0, oz) buf).2.1.2.1 : ℚ) - 1) * dy ≤
        min (((m.n2 : ℚ) - 1) * dy) (max (listMax sy) (listMax gy) + buf) ∧
       min (((m.n2 : ℚ) - 1) * dy) (max (listMax sy) (listMax gy) + buf) - dy <
        (restrict3d sx gx sy gy m (dx, dy, dz) (0, 0, oz) buf).2.2.2.1 +
          (((restrict3d sx gx sy gy m (dx, dy, dz) (0, 0, oz) buf).2.1.2.1 : ℚ) - 1) * dy ∧
       (∀ c : ℚ, c ∈ sy ∨ c ∈ gy →
         (restrict3d sx gx sy gy m (dx, dy, dz) (0, 0, oz) buf).2.2.2.1 ≤ c ∧
         c < (restrict3d sx gx sy gy m (dx, dy, dz) (0, 0, oz) buf).2.2.2.1 +
          (((restrict3d sx gx sy gy m (dx, dy, dz) (0, 0, oz) buf).2.1.2.1 : ℚ) - 1) * dy + dy))) := by
  constructor
  · intro sx gx m dx dz oz buf hdx hn hbuf hsx hgx hlh hcoords
    obtain ⟨hs1, hs2, hval, hpair, horig⟩ :=
      restrict2d_spec sx gx m dx dz oz buf
        (max 0 (min (listMin sx) (listMin gx) - buf))
        (min (((m.n1 : ℚ) - 1) * dx) (max (listMax sx) (listMax gx) + buf))
        (⌊(max 0 (min (listMin sx) (listMin gx) - buf)) / dx⌋)
        (⌊(min (((m.n1 : ℚ) - 1) * dx) (max (listMax sx) (listMax gx) + buf)) / dx⌋)
        hdx hn rfl rfl hlh rfl rfl
    have hfst : ((restrict2d sx gx m (dx, dz) (0, oz) buf).2.1.1 : ℕ) =
        (⌊(min (((m.n1 : ℚ) - 1) * dx) (max (listMax sx) (listMax gx) + buf)) / dx⌋ -
          ⌊(max 0 (min (listMin sx) (listMin gx) - buf)) / dx⌋).toNat + 1 := by
      rw [hpair]
    have hor : (restrict2d sx gx m (dx, dz) (0, oz) buf).2.2.1 =
        ((⌊(max 0 (min (listMin sx) (listMin gx) - buf)) / dx⌋ : ℚ)) * dx := by
      rw [horig]
    obtain ⟨hb1, hb2, hb3⟩ := axis_bounds dx
      (max 0 (min (listMin sx) (listMin gx) - buf))
      (min (((m.n1 : ℚ) - 1) * dx) (max (listMax sx) (listMax gx) + buf))
      m.n1 _ _ ((restrict2d sx gx m (dx, dz) (0, oz) buf).2.1.1)
      hdx hn (le_max_left 0 _) hlh (min_le_left _ _) rfl rfl hfst
    rw [hor]
    refine ⟨hb1, hb2, hb3, ?_⟩
    intro c hc
    have hclo : max 0 (min (listMin sx) (listMin gx) - buf) ≤ c := by
      have h0c : 0 ≤ c := (hcoords c hc).1
      have hminc : min (listMin sx) (listMin gx) ≤ c := by
        rcases hc with hc | hc
        · exact le_trans (min_le_left _ _) (listMin_le sx c hc)
        · exact le_trans (min_le_right _ _) (listMin_le gx c hc)
      exact max_le h0c (by linarith)
    have hchi : c ≤ min (((m.n1 : ℚ) - 1) * dx) (max (listMax sx) (listMax gx) + buf) := by
      have hext : c ≤ ((m.n1 : ℚ) - 1) * dx := (hcoords c hc).2
      have hmaxc : c ≤ max (listMax sx) (listMax gx) := by
        rcases hc with hc | hc
        · exact le_trans (le_listMax sx c hc) (le_max_left _ _)
        · exact le_trans (le_listMax gx c hc) (le_max_right _ _)
      exact le_min hext (by linarith)
    exact ⟨le_trans hb1 hclo, by linarith⟩
  · intro sx gx sy gy m dx dy dz oz buf hdx hdy hn1 hn2 hbuf hlhx hlhy hcx hcy
    obtain ⟨hs1, hs2, hs3, hval, hpair, horig⟩ :=
      restrict3d_spec sx gx sy gy m dx dy dz oz buf
        (max 0 (min (listMin sx) (listMin gx) - buf))
        (min (((m.n1 : ℚ) - 1) * dx) (max (listMax sx) (listMax gx) + buf))
        (max 0 (min (listMin sy) (listMin gy) - buf))
        (min (((m.n2 : ℚ) - 1) * dy) (max (listMax sy) (listMax gy) + buf))
        (⌊(max 0 (min (listMin sx) (listMin gx) - buf)) / dx⌋)
        (⌊(min (((m.n1 : ℚ) - 1) * dx) (max (listMax sx) (listMax gx) + buf)) / dx⌋)
        (⌊(max 0 (min (listMin sy) (listMin gy) - buf)) / dy⌋)
        (⌊(min (((m.n2 : ℚ) - 1) * dy) (max (listMax sy) (listMax gy) + buf)) / dy⌋)
        hdx hdy hn1 hn2 rfl rfl rfl rfl hlhx hlhy rfl rfl rfl rfl
    have hfstx : ((restrict3d sx gx sy gy m (dx, dy, dz) (0, 0, oz) buf).2.1.1 : ℕ) =
        (⌊(min (((m.n1 : ℚ) - 1) * dx) (max (listMax sx) (listMax gx) + buf)) / dx⌋ -
          ⌊(max 0 (min (listMin sx) (listMin gx) - buf)) / dx⌋).toNat + 1 := by
      rw [hpair]
    have hfsty : ((restrict3d sx gx sy gy m (dx, dy, dz) (0, 0, oz) buf).2.1.2.1 : ℕ) =
        (⌊(min (((m.n2 : ℚ) - 1) * dy) (max (listMax sy) (listMax gy) + buf)) / dy⌋ -
          ⌊(max 0 (min (listMin sy) (listMin gy) - buf)) / dy⌋).toNat + 1 := by
      rw [hpair]
    have horx : (restrict3d sx gx sy gy m (dx, dy, dz) (0, 0, oz) buf).2.2.1 =
        ((⌊(max 0 (min (listMin sx) (listMin gx) - buf)) / dx⌋ : ℚ)) * dx := by
      rw [horig]
    have hory : (restrict3d sx gx sy gy m (dx, dy, dz) (0, 0, oz) buf).2.2.2.1 =
        ((⌊(max 0 (min (listMin sy) (listMin gy) - buf)) / dy⌋ : ℚ)) * dy := by
      rw [horig]
    obtain ⟨hbx1, hbx2, hbx3⟩ := axis_bounds dx
      (max 0 (min (listMin sx) (listMin gx) - buf))
      (min (((m.n1 : ℚ) - 1) * dx) (max (listMax sx) (listMax gx) + buf))
      m.n1 _ _ ((restrict3d sx gx sy gy m (dx, dy, dz) (0, 0, oz) buf).2.1.1)
      hdx hn1 (le_max_left 0 _) hlhx (min_le_left _ _) rfl rfl hfstx
    obtain ⟨hby1, hby2, hby3⟩ := axis_bounds dy
      (max 0 (min (listMin sy) (listMin gy) - buf))
      (min (((m.n2 : ℚ) - 1) * dy) (max (listMax sy) (listMax gy) + buf))
      m.n2 _ _ ((restrict3d sx gx sy gy m (dx, dy, dz) (0, 0, oz) buf).2.1.2.1)
      hdy hn2 (le_max_left 0 _) hlhy (min_le_left _ _) rfl rfl hfsty
    constructor
    · rw [horx]
      refine ⟨hbx1, hbx2, hbx3, ?_⟩
      intro c hc
      have hclo : max 0 (min (listMin sx) (listMin gx) - buf) ≤ c := by
        have h0c : 0 ≤ c := (hcx c hc).1
        have hminc : min (listMin sx) (listMin gx) ≤ c := by
          rcases hc with hc | hc
          · exact le_trans (min_le_left _ _) (listMin_le sx c hc)
          · exact le_trans (min_le_right _ _) (listMin_le gx c hc)
        exact max_le h0c (by linarith)
      have hchi : c ≤ min (((m.n1 : ℚ) - 1) * dx)
          (max (listMax sx) (listMax gx) + buf) := by
        have hext : c ≤ ((m.n1 : ℚ) - 1) * dx := (hcx c hc).2
        have hmaxc : c ≤ max (listMax sx) (listMax gx) := by
          rcases hc with hc | hc
          · exact le_trans (le_listMax sx c hc) (le_max_left _ _)
          · exact le_trans (le_listMax gx c hc) (le_max_right _ _)
        exact le_min hext (by linarith)
      exact ⟨le_trans hbx1 hclo, by linarith⟩
    · rw [hory]
      refine ⟨hby1, hby2, hby3, ?_⟩
      intro c hc
      have hclo : max 0 (min (listMin sy) (listMin gy) - buf) ≤ c := by
        have h0c : 0 ≤ c := (hcy c hc).1
        have hminc : min (listMin sy) (listMin gy) ≤ c := by
          rcases hc with hc | hc
          · exact le_trans (min_le_left _ _) (listMin_le sy c hc)
          · exact le_trans (min_le_right _ _) (listMin_le gy c hc)
        exact max_le h0c (by linarith)
      have hchi : c ≤ min (((m.n2 : ℚ) - 1) * dy)
          (max (listMax sy) (listMax gy) + buf) := by
        have hext : c ≤ ((m.n2 : ℚ) - 1) * dy := (hcy c hc).2
        have hmaxc : c ≤ max (listMax sy) (listMax gy) := by
          rcases hc with hc | hc
          · exact le_trans (le_listMax sy c hc) (le_max_left _ _)
          · exact le_trans (le_listMax gy c hc) (le_max_right _ _)
        exact le_min hext (by linarith)
      exact ⟨le_trans hby1 hclo, by linarith⟩

/-- C3 counterexample: source at x = 0, one receiver at x = 555, buffer 0,
domain extent [0, 1000] (shape 101, spacing 10).  Nothing is clipped
(555 + 0 is within the domain), yet the returned aperture is
[0, 550]: its upper end 550 does not reach the receiver coordinate 555,
because the upper index bound is truncated down to the grid.  So the
sub-domain does not contain every receiver coordinate plus the buffer. -/
theorem restrict_aperture_containment_cex :
    (restrict2d [0] [555] ⟨101, 101, fun _ _ => 1⟩ (10, 10) (0, 0) 0).2.1 =
      (56, 101) ∧
    (restrict2d [0] [555] ⟨101, 101, fun _ _ => 1⟩ (10, 10) (0, 0) 0).2.2 =
      (0, 0) ∧
    ((0 : ℚ) + ((56 : ℚ) - 1) * 10 < 555) ∧
    ((555 : ℚ) + 0 ≤ ((101 : ℚ) - 1) * 10) := by
  refine ⟨?_, ?_, by norm_num, by norm_num⟩
  · simp only [restrict2d, listMin, listMax, List.foldl, truncQ, npIdx]
    norm_num
    omega
  · simp only [restrict2d, listMin, listMax, List.foldl, truncQ, npIdx]
    norm_num

/-- C3 witness: the spec example: source at x = 0, receivers at 0, 100, 500,
buffer 50, domain extent [0, 1000]: the aperture x-bounds are [0, 550]
(clipped at the lower bound to the domain origin), and the general
containment theorem applies to this input. -/
theorem restrict_aperture_containment_witness :
    (restrict2d [0] [(0 : ℚ), 100, 500] ⟨101, 101, fun _ _ => 0⟩ (10, 10) (0, 0)
      50).2.2.1 = 0 ∧
    (restrict2d [0] [(0 : ℚ), 100, 500] ⟨101, 101, fun _ _ => 0⟩ (10, 10) (0, 0)
      50).2.1.1 = 56 ∧
    (restrict2d [0] [(0 : ℚ), 100, 500] ⟨101, 101, fun _ _ => 0⟩ (10, 10) (0, 0)
      50).2.2.1 +
      (((restrict2d [0] [(0 : ℚ), 100, 500] ⟨101, 101, fun _ _ => 0⟩ (10, 10) (0, 0)
        50).2.1.1 : ℚ) - 1) * 10 = 550 ∧
    (restrict2d [0] [(0 : ℚ), 100, 500] ⟨101, 101, fun _ _ => 0⟩ (10, 10) (0, 0)
      50).2.2.1 ≤ max 0 (min (listMin [0]) (listMin [(0 : ℚ), 100, 500]) - 50) := by
  refine ⟨?_, ?_, ?_, ?_⟩
  · simp only [restrict2d, listMin, listMax, List.foldl, truncQ, npIdx]
    norm_num
  · simp only [restrict2d, listMin, listMax, List.foldl, truncQ, npIdx]
    norm_num
    omega
  · simp only [restrict2d, listMin, listMax, List.foldl, truncQ, npIdx]
    norm_num
    simp
    norm_num
  · exact (restrict_aperture_containment.1 [0] [(0 : ℚ), 100, 500]
      ⟨101, 101, fun _ _ => 0⟩ 10 10 0 50 (by norm_num) (by norm_num) (by norm_num)
      (by simp) (by simp)
      (by norm_num [listMin, listMax, List.foldl])
      (by intro c hc
          rcases hc with hc | hc
          · simp only [List.mem_singleton] at hc
            subst hc
            norm_num
          · simp only [List.mem_cons, List.not_mem_nil, or_false] at hc
            rcases hc with rfl | rfl | rfl <;> norm_num)).1

lemma extent2d_spec (sf : ℕ × ℕ) (og os : ℚ × ℚ) (ss : ℕ × ℕ) (sp : ℚ × ℚ)
    (g : Arr2) (L : ℤ)
    (hL : L = truncQ ((os.1 - og.1) / sp.1))
    (h0 : 0 ≤ L) (hle : L + (ss.1 : ℤ) ≤ (sf.1 : ℤ))
    (hg1 : g.n1 = ss.1) (hg2 : g.n2 = sf.2) :
    ∃ A : Arr2, extent2d sf og ss os sp g = some A ∧
      A.n1 = sf.1 ∧ A.n2 = sf.2 ∧
      (∀ i j, A.val i j =
        if L.toNat ≤ i ∧ i < L.toNat + ss.1 then g.val (i - L.toNat) j else 0) := by
  simp only [extent2d]
  rw [← hL]
  have hguard : 0 ≤ L ∧ 0 ≤ (sf.1 : ℤ) - (ss.1 : ℤ) - L ∧ g.n2 = sf.2 :=
    ⟨h0, by omega, hg2⟩
  rw [if_pos hguard]
  refine ⟨_, rfl, ?_, rfl, ?_⟩
  · simp only [hg1]
    omega
  · intro i j
    simp only [hg1]
    by_cases h1 : i < L.toNat
    · rw [if_pos h1, if_neg (by omega)]
    · rw [if_neg h1]
      by_cases h2 : i < L.toNat + ss.1
      · rw [if_pos h2, if_pos (by omega)]
      · rw [if_neg h2, if_neg (by omega)]

lemma extent3d_spec (sf : ℕ × ℕ × ℕ) (og os : ℚ × ℚ × ℚ) (ss : ℕ × ℕ × ℕ)
    (sp : ℚ × ℚ × ℚ) (g : Arr3) (Lx Ly : ℤ)
    (hLx : Lx = truncQ ((os.1 - og.1) / sp.1))
    (hLy : Ly = truncQ ((os.2.1 - og.2.1) / sp.2.1))
    (h0x : 0 ≤ Lx) (hlex : Lx + (ss.1 : ℤ) ≤ (sf.1 : ℤ))
    (h0y : 0 ≤ Ly) (hley : Ly + (ss.2.1 : ℤ) ≤ (sf.2.1 : ℤ))
    (hg1 : g.n1 = ss.1) (hg2 : g.n2 = ss.2.1) (hg3 : g.n3 = sf.2.2) :
    ∃ A : Arr3, extent3d sf og ss os sp g = some A ∧
      A.n1 = sf.1 ∧ A.n2 = sf.2.1 ∧ A.n3 = sf.2.2 ∧
      (∀ i j k, A.val i j k =
        if (Lx.toNat ≤ i ∧ i < Lx.toNat + ss.1) ∧
            (Ly.toNat ≤ j ∧ j < Ly.toNat + ss.2.1) then
          g.val (i - Lx.toNat) (j - Ly.toNat) k
        else 0) := by
  simp only [extent3d]
  rw [← hLx, ← hLy]
  have hguard : 0 ≤ Lx ∧ 0 ≤ (sf.1 : ℤ) - (ss.1 : ℤ) - Lx ∧ g.n2 = ss.2.1 ∧
      g.n3 = sf.2.2 ∧ 0 ≤ Ly ∧ 0 ≤ (sf.2.1 : ℤ) - (ss.2.1 : ℤ) - Ly ∧
      Lx.toNat + g.n1 + ((sf.1 : ℤ) - (ss.1 : ℤ) - Lx).toNat = sf.1 := by
    refine ⟨h0x, by omega, hg2, hg3, h0y, by omega, ?_⟩
    rw [hg1]
    omega
  rw [if_pos hguard]
  refine ⟨_, rfl, rfl, ?_, rfl, ?_⟩
  · simp only [hg2]
    omega
  · intro i j k
    simp only [hg1, hg2]
    by_cases hj1 : j < Ly.toNat
    · rw [if_pos hj1, if_neg (by omega)]
    · rw [if_neg hj1]
      by_cases hj2 : j < Ly.toNat + ss.2.1
      · rw [if_pos hj2]
        by_cases hi1 : i < Lx.toNat
        · rw [if_pos hi1, if_neg (by omega)]
        · rw [if_neg hi1]
          by_cases hi2 : i < Lx.toNat + ss.1
          · rw [if_pos hi2, if_pos (by omega)]
          · rw [if_neg hi2, if_neg (by omega)]
      · rw [if_neg hj2, if_neg (by omega)]

/-- C4 (amended): extent_gradient computes the left index offset of each
restricted axis as int((origin_sub - origin_full) / spacing), i.e. truncation
toward zero of the exact quotient (not rounding to nearest), the right offset
as shape_full - shape_sub - left, and the depth (last) axis is never padded;
whenever the offsets are nonnegative and the sub-array matches the declared
sub-shape with a full-sized depth axis, the result has shape shape_full with
the sub-array values at [left : left + shape_sub] on each restricted axis and
zeros elsewhere.  Stated for the 2-axis and 3-axis branches. -/
theorem extent_gradient_spec :
    (∀ (sf : ℕ × ℕ) (og : ℚ × ℚ) (ss : ℕ × ℕ) (os : ℚ × ℚ) (sp : ℚ × ℚ) (g : Arr2),
      0 ≤ truncQ ((os.1 - og.1) / sp.1) →
      truncQ ((os.1 - og.1) / sp.1) + (ss.1 : ℤ) ≤ (sf.1 : ℤ) →
      g.n1 = ss.1 → g.n2 = sf.2 →
      ∃ A : Arr2, extent2d sf og ss os sp g = some A ∧
        A.n1 = sf.1 ∧ A.n2 = sf.2 ∧
        (∀ i j, A.val i j =
          if (truncQ ((os.1 - og.1) / sp.1)).toNat ≤ i ∧
              i < (truncQ ((os.1 - og.1) / sp.1)).toNat + ss.1 then
            g.val (i - (truncQ ((os.1 - og.1) / sp.1)).toNat) j
          else 0)) ∧
    (∀ (sf : ℕ × ℕ × ℕ) (og : ℚ × ℚ × ℚ) (ss : ℕ × ℕ × ℕ) (os : ℚ × ℚ × ℚ)
        (sp : ℚ × ℚ × ℚ) (g : Arr3),
      0 ≤ truncQ ((os.1 - og.1) / sp.1) →
      truncQ ((os.1 - og.1) / sp.1) + (ss.1 : ℤ) ≤ (sf.1 : ℤ) →
      0 ≤ truncQ ((os.2.1 - og.2.1) / sp.2.1) →
      truncQ ((os.2.1 - og.2.1) / sp.2.1) + (ss.2.1 : ℤ) ≤ (sf.2.1 : ℤ) →
      g.n1 = ss.1 → g.n2 = ss.2.1 → g.n3 = sf.2.2 →
      ∃ A : Arr3, extent3d sf og ss os sp g = some A ∧
        A.n1 = sf.1 ∧ A.n2 = sf.2.1 ∧ A.n3 = sf.2.2 ∧
        (∀ i j k, A.val i j k =
          if ((truncQ ((os.1 - og.1) / sp.1)).toNat ≤ i ∧
              i < (truncQ ((os.1 - og.1) / sp.1)).toNat + ss.1) ∧
              ((truncQ ((os.2.1 - og.2.1) / sp.2.1)).toNat ≤ j ∧
              j < (truncQ ((os.2.1 - og.2.1) / sp.2.1)).toNat + ss.2.1) then
            g.val (i - (truncQ ((os.1 - og.1) / sp.1)).toNat)
              (j - (truncQ ((os.2.1 - og.2.1) / sp.2.1)).toNat) k
          else 0)) := by
  constructor
  · intro sf og ss os sp g h0 hle hg1 hg2
    exact extent2d_spec sf og os ss sp g _ rfl h0 hle hg1 hg2
  · intro sf og ss os sp g h0x hlex h0y hley hg1 hg2 hg3
    exact extent3d_spec sf og os ss sp g _ _ rfl rfl h0x hlex h0y hley hg1 hg2 hg3

/-- C4 counterexample: with origin_sub - origin_full = 57 and spacing 10 the
exact quotient is 5.7; the code places the single sub-domain row at index
int(5.7) = 5, not at round(5.7) = 6: the value appears at row 5 and row 6 is
zero, refuting the claim that the left offset equals
round((origin_sub - origin_full) / spacing). -/
theorem extent_offsets_round_cex :
    ((extent2d (12, 1) (0, 0) (1, 1) (57, 0) (10, 10) ⟨1, 1, fun _ _ => 1⟩).map
      (fun A => (A.n1, A.val 4 0, A.val 5 0, A.val 6 0))) = some (12, 0, 1, 0) ∧
    round (((57 : ℚ) - 0) / 10) = 6 ∧
    truncQ (((57 : ℚ) - 0) / 10) = 5 := by
  refine ⟨?_, by norm_num [round_eq], ?_⟩
  · simp only [extent2d, truncQ, npIdx]
    norm_num
    omega
  · rw [truncQ, if_pos (by norm_num)]
    norm_num

/-- C4 witness: the spec example: a (20, 101) sub-array with left offset 5
(origin difference 50, spacing 10) embedded into full shape (121, 101) gives
a (121, 101) array with the sub-domain values at rows 5 .. 24 and zeros
elsewhere. -/
theorem extent_gradient_spec_witness :
    ((extent2d (121, 101) (0, 0) (20, 101) (50, 0) (10, 10)
        ⟨20, 101, fun i j => (i : ℚ) * 1000 + (j : ℚ) + 1⟩).map
      (fun A => (A.n1, A.n2, A.val 4 0, A.val 5 0, A.val 24 100, A.val 25 0))) =
      some (121, 101, 0, 1, 19101, 0) := by
  obtain ⟨A, hA, h1, h2, h3⟩ := extent_gradient_spec.1 (121, 101) (0, 0) (20, 101)
    (50, 0) (10, 10) ⟨20, 101, fun i j => (i : ℚ) * 1000 + (j : ℚ) + 1⟩
    (by norm_num [truncQ]) (by norm_num [truncQ]) rfl rfl
  rw [hA, Option.map_some']
  have hv4 := h3 4 0
  have hv5 := h3 5 0
  have hv24 := h3 24 100
  have hv25 := h3 25 0
  norm_num [truncQ] at hv4 hv5 hv24 hv25
  rw [h1, h2, hv4, hv5, hv24, hv25]
  simp
  norm_num

lemma roundtrip2d (sx gx : List ℚ) (m : Arr2) (dx dz oz buf : ℚ)
    (hdx : 0 < dx) (hn : 1 ≤ m.n1)
    (hlh : max 0 (min (listMin sx) (listMin gx) - buf) ≤
      min (((m.n1 : ℚ) - 1) * dx) (max (listMax sx) (listMax gx) + buf)) :
    ∃ A : Arr2,
      extent2d (m.n1, m.n2) (0, oz)
        (restrict2d sx gx m (dx, dz) (0, oz) buf).2.1
        (restrict2d sx gx m (dx, dz) (0, oz) buf).2.2
        (dx, dz)
        (restrict2d sx gx m (dx, dz) (0, oz) buf).1 = some A ∧
      A.n1 = m.n1 ∧ A.n2 = m.n2 ∧
      (∀ i j, A.val i j =
        if ⌊(max 0 (min (listMin sx) (listMin gx) - buf)) / dx⌋ ≤ (i : ℤ) ∧
            (i : ℤ) ≤ ⌊(min (((m.n1 : ℚ) - 1) * dx)
              (max (listMax sx) (listMax gx) + buf)) / dx⌋ then
          m.val i j
        else 0) := by
  have h0lo : 0 ≤ max 0 (min (listMin sx) (listMin gx) - buf) := le_max_left 0 _
  have hhi' : min (((m.n1 : ℚ) - 1) * dx) (max (listMax sx) (listMax gx) + buf) ≤
      ((m.n1 : ℚ) - 1) * dx := min_le_left _ _
  obtain ⟨hfl0, hmono, hub, htr1, htr2, hfl_le, hfh_le, hlt, hnp1, hnp2, htr3⟩ :=
    axis_facts dx (max 0 (min (listMin sx) (listMin gx) - buf))
      (min (((m.n1 : ℚ) - 1) * dx) (max (listMax sx) (listMax gx) + buf))
      m.n1 hdx hn h0lo hlh hhi'
  obtain ⟨hs1, hs2, hval, hpair, horig⟩ :=
    restrict2d_spec sx gx m dx dz oz buf
      (max 0 (min (listMin sx) (listMin gx) - buf))
      (min (((m.n1 : ℚ) - 1) * dx) (max (listMax sx) (listMax gx) + buf))
      (⌊(max 0 (min (listMin sx) (listMin gx) - buf)) / dx⌋)
      (⌊(min (((m.n1 : ℚ) - 1) * dx) (max (listMax sx) (listMax gx) + buf)) / dx⌋)
      hdx hn rfl rfl hlh rfl rfl
  have hL : (⌊(max 0 (min (listMin sx) (listMin gx) - buf)) / dx⌋ : ℤ) =
      truncQ (((restrict2d sx gx m (dx, dz) (0, oz) buf).2.2.1 - ((0 : ℚ), oz).1) /
        ((dx, dz) : ℚ × ℚ).1) := by
    rw [horig]
    simp only []
    rw [sub_zero]
    exact htr3.symm
  have hle : (⌊(max 0 (min (listMin sx) (listMin gx) - buf)) / dx⌋ : ℤ) +
      (((restrict2d sx gx m (dx, dz) (0, oz) buf).2.1.1 : ℕ) : ℤ) ≤
      ((m.n1, m.n2).1 : ℤ) := by
    have h := congrArg Prod.fst hpair
    simp only [] at h
    rw [h]
    omega
  have hg1 : (restrict2d sx gx m (dx, dz) (0, oz) buf).1.n1 =
      (restrict2d sx gx m (dx, dz) (0, oz) buf).2.1.1 := by
    have h := congrArg Prod.fst hpair
    simp only [] at h
    rw [h, hs1]
  have hg2 : (restrict2d sx gx m (dx, dz) (0, oz) buf).1.n2 = ((m.n1, m.n2) : ℕ × ℕ).2 := hs2
  obtain ⟨A, hA, h1, h2, h3⟩ :=
    extent2d_spec (m.n1, m.n2) (0, oz)
      (restrict2d sx gx m (dx, dz) (0, oz) buf).2.2
      (restrict2d sx gx m (dx, dz) (0, oz) buf).2.1
      (dx, dz)
      (restrict2d sx gx m (dx, dz) (0, oz) buf).1
      (⌊(max 0 (min (listMin sx) (listMin gx) - buf)) / dx⌋)
      hL hfl0 hle hg1 hg2
  refine ⟨A, hA, h1, h2, ?_⟩
  intro i j
  rw [h3 i j]
  have hfst : ((restrict2d sx gx m (dx, dz) (0, oz) buf).2.1.1 : ℕ) =
      (⌊(min (((m.n1 : ℚ) - 1) * dx) (max (listMax sx) (listMax gx) + buf)) / dx⌋ -
        ⌊(max 0 (min (listMin sx) (listMin gx) - buf)) / dx⌋).toNat + 1 := by
    have h := congrArg Prod.fst hpair
    simpa using h
  by_cases hcond : (⌊(max 0 (min (listMin sx) (listMin gx) - buf)) / dx⌋).toNat ≤ i ∧
      i < (⌊(max 0 (min (listMin sx) (listMin gx) - buf)) / dx⌋).toNat +
        (restrict2d sx gx m (dx, dz) (0, oz) buf).2.1.1
  · rw [if_pos hcond, if_pos (by rw [hfst] at hcond; omega)]
    rw [hval]
    congr 1
    omega
  · rw [if_neg hcond, if_neg (by rw [hfst] at hcond; omega)]

lemma roundtrip3d (sx gx sy gy : List ℚ) (m : Arr3) (dx dy dz oz buf : ℚ)
    (hdx : 0 < dx) (hdy : 0 < dy) (hn1 : 1 ≤ m.n1) (hn2 : 1 ≤ m.n2)
    (hlhx : max 0 (min (listMin sx) (listMin gx) - buf) ≤
      min (((m.n1 : ℚ) - 1) * dx) (max (listMax sx) (listMax gx) + buf))
    (hlhy : max 0 (min (listMin sy) (listMin gy) - buf) ≤
      min (((m.n2 : ℚ) - 1) * dy) (max (listMax sy) (listMax gy) + buf)) :
    ∃ A : Arr3,
      extent3d (m.n1, m.n2, m.n3) (0, 0, oz)
        (restrict3d sx gx sy gy m (dx, dy, dz) (0, 0, oz) buf).2.1
        (restrict3d sx gx sy gy m (dx, dy, dz) (0, 0, oz) buf).2.2
        (dx, dy, dz)
        (restrict3d sx gx sy gy m (dx, dy, dz) (0, 0, oz) buf).1 = some A ∧
      A.n1 = m.n1 ∧ A.n2 = m.n2 ∧ A.n3 = m.n3 ∧
      (∀ i j k, A.val i j k =
        if (⌊(max 0 (min (listMin sx) (listMin gx) - buf)) / dx⌋ ≤ (i : ℤ) ∧
            (i : ℤ) ≤ ⌊(min (((m.n1 : ℚ) - 1) * dx)
              (max (listMax sx) (listMax gx) + buf)) / dx⌋) ∧
            (⌊(max 0 (min (listMin sy) (listMin gy) - buf)) / dy⌋ ≤ (j : ℤ) ∧
            (j : ℤ) ≤ ⌊(min (((m.n2 : ℚ) - 1) * dy)
              (max (listMax sy) (listMax gy) + buf)) / dy⌋) then
          m.val i j k
        else 0) := by
  have h0lox : 0 ≤ max 0 (min (listMin sx) (listMin gx) - buf) := le_max_left 0 _
  have hhix' : min (((m.n1 : ℚ) - 1) * dx) (max (listMax sx) (listMax gx) + buf) ≤
      ((m.n1 : ℚ) - 1) * dx := min_le_left _ _
  have h0loy : 0 ≤ max 0 (min (listMin sy) (listMin gy) - buf) := le_max_left 0 _
  have hhiy' : min (((m.n2 : ℚ) - 1) * dy) (max (listMax sy) (listMax gy) + buf) ≤
      ((m.n2 : ℚ) - 1) * dy := min_le_left _ _
  obtain ⟨hfl0x, hmonox, hubx, htr1x, htr2x, hfl_lex, hfh_lex, hltx, hnp1x, hnp2x, htr3x⟩ :=
    axis_facts dx (max 0 (min (listMin sx) (listMin gx) - buf))
      (min (((m.n1 : ℚ) - 1) * dx) (max (listMax sx) (listMax gx) + buf))
      m.n1 hdx hn1 h0lox hlhx hhix'
  obtain ⟨hfl0y, hmonoy, huby, htr1y, htr2y, hfl_ley, hfh_ley, hlty, hnp1y, hnp2y, htr3y⟩ :=
    axis_facts dy (max 0 (min (listMin sy) (listMin gy) - buf))
      (min (((m.n2 : ℚ) - 1) * dy) (max (listMax sy) (listMax gy) + buf))
      m.n2 hdy hn2 h0loy hlhy hhiy'
  obtain ⟨hs1, hs2, hs3, hval, hpair, horig⟩ :=
    restrict3d_spec sx gx sy gy m dx dy dz oz buf
      (max 0 (min (listMin sx) (listMin gx) - buf))
      (min (((m.n1 : ℚ) - 1) * dx) (max (listMax sx) (listMax gx) + buf))
      (max 0 (min (listMin sy) (listMin gy) - buf))
      (min (((m.n2 : ℚ) - 1) * dy) (max (listMax sy) (listMax gy) + buf))
      (⌊(max 0 (min (listMin sx) (listMin gx) - buf)) / dx⌋)
      (⌊(min (((m.n1 : ℚ) - 1) * dx) (max (listMax sx) (listMax gx) + buf)) / dx⌋)
      (⌊(max 0 (min (listMin sy) (listMin gy) - buf)) / dy⌋)
      (⌊(min (((m.n2 : ℚ) - 1) * dy) (max (listMax sy) (listMax gy) + buf)) / dy⌋)
      hdx hdy hn1 hn2 rfl rfl rfl rfl hlhx hlhy rfl rfl rfl rfl
  have hfstx : ((restrict3d sx gx sy gy m (dx, dy, dz) (0, 0, oz) buf).2.1.1 : ℕ) =
      (⌊(min (((m.n1 : ℚ) - 1) * dx) (max (listMax sx) (listMax gx) + buf)) / dx⌋ -
        ⌊(max 0 (min (listMin sx) (listMin gx) - buf)) / dx⌋).toNat + 1 := by
    have h := congrArg Prod.fst hpair
    simpa using h
  have hfsty : ((restrict3d sx gx sy gy m (dx, dy, dz) (0, 0, oz) buf).2.1.2.1 : ℕ) =
      (⌊(min (((m.n2 : ℚ) - 1) * dy) (max (listMax sy) (listMax gy) + buf)) / dy⌋ -
        ⌊(max 0 (min (listMin sy) (listMin gy) - buf)) / dy⌋).toNat + 1 := by
    have h := congrArg (fun p : ℕ × ℕ × ℕ => p.2.1) hpair
    simpa using h
  have hLx : (⌊(max 0 (min (listMin sx) (listMin gx) - buf)) / dx⌋ : ℤ) =
      truncQ (((restrict3d sx gx sy gy m (dx, dy, dz) (0, 0, oz) buf).2.2.1 -
        ((0 : ℚ), (0 : ℚ), oz).1) / ((dx, dy, dz) : ℚ × ℚ × ℚ).1) := by
    have h := congrArg Prod.fst horig
    simp only [] at h
    rw [h]
    simp only []
    rw [sub_zero]
    exact htr3x.symm
  have hLy : (⌊(max 0 (min (listMin sy) (listMin gy) - buf)) / dy⌋ : ℤ) =
      truncQ (((restrict3d sx gx sy gy m (dx, dy, dz) (0, 0, oz) buf).2.2.2.1 -
        ((0 : ℚ), (0 : ℚ), oz).2.1) / ((dx, dy, dz) : ℚ × ℚ × ℚ).2.1) := by
    have h := congrArg (fun p : ℚ × ℚ × ℚ => p.2.1) horig
    simp only [] at h
    rw [h]
    simp only []
    rw [sub_zero]
    exact htr3y.symm
  have hlex : (⌊(max 0 (min (listMin sx) (listMin gx) - buf)) / dx⌋ : ℤ) +
      (((restrict3d sx gx sy gy m (dx, dy, dz) (0, 0, oz) buf).2.1.1 : ℕ) : ℤ) ≤
      (((m.n1, m.n2, m.n3) : ℕ × ℕ × ℕ).1 : ℤ) := by
    rw [hfstx]
    simp only []
    omega
  have hley : (⌊(max 0 (min (listMin sy) (listMin gy) - buf)) / dy⌋ : ℤ) +
      (((restrict3d sx gx sy gy m (dx, dy, dz) (0, 0, oz) buf).2.1.2.1 : ℕ) : ℤ) ≤
      (((m.n1, m.n2, m.n3) : ℕ × ℕ × ℕ).2.1 : ℤ) := by
    rw [hfsty]
    simp only []
    omega
  have hg1 : (restrict3d sx gx sy gy m (dx, dy, dz) (0, 0, oz) buf).1.n1 =
      (restrict3d sx gx sy gy m (dx, dy, dz) (0, 0, oz) buf).2.1.1 := by
    rw [hfstx, hs1]
  have hg2 : (restrict3d sx gx sy gy m (dx, dy, dz) (0, 0, oz) buf).1.n2 =
      (restrict3d sx gx sy gy m (dx, dy, dz) (0, 0, oz) buf).2.1.2.1 := by
    rw [hfsty, hs2]
  have hg3 : (restrict3d sx gx sy gy m (dx, dy, dz) (0, 0, oz) buf).1.n3 =
      (((m.n1, m.n2, m.n3) : ℕ × ℕ × ℕ) : ℕ × ℕ × ℕ).2.2 := hs3
  obtain ⟨A, hA, h1, h2, h3, h4⟩ :=
    extent3d_spec (m.n1, m.n2, m.n3) (0, 0, oz)
      (restrict3d sx gx sy gy m (dx, dy, dz) (0, 0, oz) buf).2.2
      (restrict3d sx gx sy gy m (dx, dy, dz) (0, 0, oz) buf).2.1
      (dx, dy, dz)
      (restrict3d sx gx sy gy m (dx, dy, dz) (0, 0, oz) buf).1
      (⌊(max 0 (min (listMin sx) (listMin gx) - buf)) / dx⌋)
      (⌊(max 0 (min (listMin sy) (listMin gy) - buf)) / dy⌋)
      hLx hLy hfl0x hlex hfl0y hley hg1 hg2 hg3
  refine ⟨A, hA, h1, h2, h3, ?_⟩
  intro i j k
  rw [h4 i j k]
  by_cases hcond : ((⌊(max 0 (min (listMin sx) (listMin gx) - buf)) / dx⌋).toNat ≤ i ∧
      i < (⌊(max 0 (min (listMin sx) (listMin gx) - buf)) / dx⌋).toNat +
        (restrict3d sx gx sy gy m (dx, dy, dz) (0, 0, oz) buf).2.1.1) ∧
      ((⌊(max 0 (min (listMin sy) (listMin gy) - buf)) / dy⌋).toNat ≤ j ∧
      j < (⌊(max 0 (min (listMin sy) (listMin gy) - buf)) / dy⌋).toNat +
        (restrict3d sx gx sy gy m (dx, dy, dz) (0, 0, oz) buf).2.1.2.1)
  · rw [if_pos hcond]
    rw [if_pos (by rw [hfstx, hfsty] at hcond; omega)]
    rw [hval]
    congr 1
    · omega
    · omega
  · rw [if_neg hcond]
    rw [if_neg (by rw [hfstx, hfsty] at hcond; omega)]

/-- C1 (amended): when the restricted axes have physical origin 0 (the code
divides absolute coordinates, not origin-relative ones, by the spacing) and
the clipped aperture is nonempty, feeding the sub-array produced by
restrict_model_to_receiver_grid into extent_gradient, with the shapes and
origins the two functions exchange, reproduces a full-domain-shaped array
that equals the original array at the aperture index range
[floor(lo/spacing), floor(hi/spacing)] of each restricted axis and is zero
at every index outside it, where lo and hi are the clipped aperture bounds.
Stated for the 2-axis and the 3-axis branch. -/
theorem restrict_extent_roundtrip :
    (∀ (sx gx : List ℚ) (m : Arr2) (dx dz oz buf : ℚ),
      0 < dx → 1 ≤ m.n1 → sx ≠ [] → gx ≠ [] →
      max 0 (min (listMin sx) (listMin gx) - buf) ≤
        min (((m.n1 : ℚ) - 1) * dx) (max (listMax sx) (listMax gx) + buf) →
      ∃ A : Arr2,
        extent2d (m.n1, m.n2) (0, oz)
          (restrict2d sx gx m (dx, dz) (0, oz) buf).2.1
          (restrict2d sx gx m (dx, dz) (0, oz) buf).2.2
          (dx, dz)
          (restrict2d sx gx m (dx, dz) (0, oz) buf).1 = some A ∧
        A.n1 = m.n1 ∧ A.n2 = m.n2 ∧
        (∀ i j, A.val i j =
          if ⌊(max 0 (min (listMin sx) (listMin gx) - buf)) / dx⌋ ≤ (i : ℤ) ∧
              (i : ℤ) ≤ ⌊(min (((m.n1 : ℚ) - 1) * dx)
                (max (listMax sx) (listMax gx) + buf)) / dx⌋ then
            m.val i j
          else 0)) ∧
    (∀ (sx gx sy gy : List ℚ) (m : Arr3) (dx dy dz oz buf : ℚ),
      0 < dx → 0 < dy → 1 ≤ m.n1 → 1 ≤ m.n2 →
      sx ≠ [] → gx ≠ [] → sy ≠ [] → gy ≠ [] →
      max 0 (min (listMin sx) (listMin gx) - buf) ≤
        min (((m.n1 : ℚ) - 1) * dx) (max (listMax sx) (listMax gx) + buf) →
      max 0 (min (listMin sy) (listMin gy) - buf) ≤
        min (((m.n2 : ℚ) - 1) * dy) (max (listMax sy) (listMax gy) + buf) →
      ∃ A : Arr3,
        extent3d (m.n1, m.n2, m.n3) (0, 0, oz)
          (restrict3d sx gx sy gy m (dx, dy, dz) (0, 0, oz) buf).2.1
          (restrict3d sx gx sy gy m (dx, dy, dz) (0, 0, oz) buf).2.2
          (dx, dy, dz)
          (restrict3d sx gx sy gy m (dx, dy, dz) (0, 0, oz) buf).1 = some A ∧
        A.n1 = m.n1 ∧ A.n2 = m.n2 ∧ A.n3 = m.n3 ∧
        (∀ i j k, A.val i j k =
          if (⌊(max 0 (min (listMin sx) (listMin gx) - buf)) / dx⌋ ≤ (i : ℤ) ∧
              (i : ℤ) ≤ ⌊(min (((m.n1 : ℚ) - 1) * dx)
                (max (listMax sx) (listMax gx) + buf)) / dx⌋) ∧
              (⌊(max 0 (min (listMin sy) (listMin gy) - buf)) / dy⌋ ≤ (j : ℤ) ∧
              (j : ℤ) ≤ ⌊(min (((m.n2 : ℚ) - 1) * dy)
                (max (listMax sy) (listMax gy) + buf)) / dy⌋) then
            m.val i j k
          else 0)) := by
  constructor
  · intro sx gx m dx dz oz buf hdx hn _hsx _hgx hlh
    exact roundtrip2d sx gx m dx dz oz buf hdx hn hlh
  · intro sx gx sy gy m dx dy dz oz buf hdx hdy hn1 hn2 _hsx _hgx _hsy _hgy hlhx hlhy
    exact roundtrip3d sx gx sy gy m dx dy dz oz buf hdx hdy hn1 hn2 hlhx hlhy

/-- C1 counterexample: with nonzero origin the round trip misplaces values.
Domain origin x = 10, spacing 10, 11 points (extent [10, 110]), model values
m[i] = i + 1, source at 50, receiver at 70, buffer 0: the aperture [50, 70]
lies fully inside the domain, its index range is 4 .. 6, yet the embedded
array holds m[5..7] = (6, 7, 8) at indices 4 .. 6 and zero at index 7: the
result is neither equal to the original at the aperture indices (A[4] = 6
but m[4] = 5) nor zero everywhere outside the slice range 5 .. 7. -/
theorem restrict_extent_roundtrip_cex :
    ((extent2d (11, 3) (10, 0)
        (restrict2d [50] [70] ⟨11, 3, fun i _ => (i : ℚ) + 1⟩ (10, 10) (10, 0) 0).2.1
        (restrict2d [50] [70] ⟨11, 3, fun i _ => (i : ℚ) + 1⟩ (10, 10) (10, 0) 0).2.2
        (10, 10)
        (restrict2d [50] [70] ⟨11, 3, fun i _ => (i : ℚ) + 1⟩ (10, 10) (10, 0) 0).1).map
      (fun A => (A.n1, A.val 4 0, A.val 5 0, A.val 6 0, A.val 7 0))) =
      some (11, 6, 7, 8, 0) ∧
    (⟨11, 3, fun i _ => (i : ℚ) + 1⟩ : Arr2).val 4 0 = 5 ∧
    (⟨11, 3, fun i _ => (i : ℚ) + 1⟩ : Arr2).val 7 0 = 8 ∧
    ((10 : ℚ) ≤ 50 - 0) ∧ ((70 : ℚ) + 0 ≤ 10 + ((11 : ℚ) - 1) * 10) := by
  refine ⟨?_, by norm_num, by norm_num, by norm_num, by norm_num⟩
  simp only [restrict2d, extent2d, listMin, listMax, List.foldl, truncQ, npIdx]
  norm_num
  simp
  norm_num

/-- C1 witness: origin 0, spacing 10, 11 grid points, model values
m[i][j] = 10 i + j + 1, source at 20, receiver at 60, buffer 10: the
aperture index range is 1 .. 7 and the embedded full-domain array holds the
original values there and zero outside. -/
theorem restrict_extent_roundtrip_witness :
    ((extent2d (11, 3) (0, 0)
        (restrict2d [20] [(60 : ℚ)] ⟨11, 3, fun i j => (i : ℚ) * 10 + (j : ℚ) + 1⟩
          (10, 10) (0, 0) 10).2.1
        (restrict2d [20] [(60 : ℚ)] ⟨11, 3, fun i j => (i : ℚ) * 10 + (j : ℚ) + 1⟩
          (10, 10) (0, 0) 10).2.2
        (10, 10)
        (restrict2d [20] [(60 : ℚ)] ⟨11, 3, fun i j => (i : ℚ) * 10 + (j : ℚ) + 1⟩
          (10, 10) (0, 0) 10).1).map
      (fun A => (A.n1, A.n2, A.val 0 0, A.val 1 0, A.val 5 2, A.val 7 0, A.val 8 0))) =
      some (11, 3, 0, 11, 53, 71, 0) := by
  obtain ⟨A, hA, h1, h2, h3⟩ := restrict_extent_roundtrip.1 [20] [(60 : ℚ)]
    ⟨11, 3, fun i j => (i : ℚ) * 10 + (j : ℚ) + 1⟩ 10 10 0 10
    (by norm_num) (by norm_num) (by simp) (by simp)
    (by norm_num [listMin, listMax, List.foldl])
  rw [hA, Option.map_some']
  have hv0 := h3 0 0
  have hv1 := h3 1 0
  have hv5 := h3 5 2
  have hv7 := h3 7 0
  have hv8 := h3 8 0
  norm_num [listMin, listMax, List.foldl] at hv0 hv1 hv5 hv7 hv8
  rw [h1, h2, hv0, hv1, hv5, hv7, hv8]
